import Mathlib

/-!
esutils: parameter mixins, range clauses and their encoding hooks.

A shallow embedding of the Go sources

* `search/range.go`        (`Range`, `RangeRule`, `RangeQuery`)
* `search/format.go`       (`FormatParam`)
* `search/fuzziness.go`    (`FuzzinessParam`, `WithFuzziness`, the marshal hooks)
* `search/matchBooleanPrefix.go`, `search/matchPhrase.go`
* `mapping/norms.go`       (`NormsParam`)
* `transpositions_param.go` (`transpositionsParam`, `WithTranspositions`)
* `scaling_factor.go`      (`scalingFactorParam`)
* `regexp_query.go`        (`RegexpQueryParams`, `RegexpQuery`)
* `rank_feature_field.go`  (`RankFeatureFieldParams`, `RankFeatureField`, `RankFeaturesField`)

Mutating methods become functions that return the new receiver state (together
with the returned `error`, `none` standing for Go's `nil`).  Pointers that are
only used as "optional value" are `Option`s.
-/

set_option autoImplicit false
set_option linter.dupNamespace false

/-! ## Go maps with string keys -/

/-- An allocated Go map with string keys, kept as an association list.  The first
entry for a key is the one that is looked up. -/
structure GoMap (V : Type) where
  entries : List (String × V)
  deriving DecidableEq, Repr

namespace GoMap

variable {V : Type}

/-- The map literal `map[string]V{}`. -/
def empty : GoMap V := ⟨[]⟩

/-- Lookup in an entry list. -/
def getList : List (String × V) → String → Option V
  | [], _ => none
  | (k, v) :: m, key => if k = key then some v else getList m key

/-- Write in an entry list: replace the entry of `key`, or append a new one. -/
def setList : List (String × V) → String → V → List (String × V)
  | [], key, val => [(key, val)]
  | (k, v) :: m, key, val =>
      if k = key then (key, val) :: m else (k, v) :: setList m key val

/-- The read `v, ok := m[key]`; `none` when the key is absent. -/
def get (m : GoMap V) (key : String) : Option V := getList m.entries key

/-- The write `m[key] = val`. -/
def set (m : GoMap V) (key : String) (val : V) : GoMap V := ⟨setList m.entries key val⟩

/-- The keys of the map. -/
def keys (m : GoMap V) : List String := m.entries.map Prod.fst

end GoMap

/-- A value stored in a `map[string]interface{}`: the dynamic types the encoding hooks
store, and any other value. -/
inductive Any (α : Type) where
  | bool (b : Bool)
  | string (s : String)
  | rewrite (r : String)
  | other (a : α)
  deriving DecidableEq, Repr

namespace search

/-! ## `search`: kinds and errors -/

/-- The kind tags (`Type` in the source) that `range.go` uses. -/
inductive Kind where
  | TypeBoolean
  | TypeRange
  deriving DecidableEq, Repr

/-- Values of Go's `error` that the embedded code returns; `dynamic e` is an error handed
back by package `dynamic`. -/
inductive Error (E : Type) where
  | ErrFieldExists
  | ErrFieldRequired
  | ErrInvalidRewrite
  | dynamic (e : E)
  | QueryError (Field : String) (Err : Error E) (Type_ : Kind)
  deriving DecidableEq, Repr

/-- The string type `Rewrite`. -/
abbrev Rewrite := String

end search

/-! ## Go method sets and type assertions -/

/-- A method of a dynamic type together with its signature: each signature that the
interfaces below mention has a constructor of its own, so that two methods have the same
signature exactly when they are built by the same constructor. -/
inductive Impl (σ E : Type) where
  /-- Signature `func() bool`. -/
  | getBool (f : σ → Bool)
  /-- Signature `func(bool)`. -/
  | setBool (f : σ → Bool → σ)
  /-- Signature `func() string`. -/
  | getString (f : σ → String)
  /-- Signature `func(string)`. -/
  | setString (f : σ → String → σ)
  /-- Signature `func() Rewrite`. -/
  | getRewrite (f : σ → search.Rewrite)
  /-- Signature `func(Rewrite)`. -/
  | setRewrite (f : σ → search.Rewrite → σ)
  /-- Signature `func(Rewrite) error`. -/
  | setRewriteErr (f : σ → search.Rewrite → σ × Option (search.Error E))
  /-- Any other signature. -/
  | other (signature : String)

/-- The methods declared on a type or promoted to it from its embedded fields, by name. -/
abbrev Methods (σ E : Type) := List (String × Impl σ E)

/-- The method that a name selects: a name declared or promoted exactly once.  A name
promoted from two embedded fields is ambiguous and selects nothing. -/
def lookupMethod {σ E : Type} (ms : Methods σ E) (name : String) : Option (Impl σ E) :=
  match ms.filter fun m => m.1 = name with
  | [m] => some m.2
  | _ => none

/-- A value held in an `interface{}`: the value and the methods of its dynamic type. -/
structure Dyn (σ E : Type) where
  value : σ
  methods : Methods σ E

/-- Promotion of a method of an embedded field to the embedding struct: it reads the field
with `get`, runs the method on it and writes the field back with `put`; the signature is
unchanged. -/
def Impl.promote {σ τ E : Type} (get : τ → σ) (put : τ → σ → τ) : Impl σ E → Impl τ E
  | .getBool f => .getBool fun t => f (get t)
  | .setBool f => .setBool fun t b => put t (f (get t) b)
  | .getString f => .getString fun t => f (get t)
  | .setString f => .setString fun t v => put t (f (get t) v)
  | .getRewrite f => .getRewrite fun t => f (get t)
  | .setRewrite f => .setRewrite fun t v => put t (f (get t) v)
  | .setRewriteErr f => .setRewriteErr fun t v => (put t (f (get t) v).1, (f (get t) v).2)
  | .other signature => .other signature

namespace search

/-! ## `search/format.go` -/

/-- The struct `FormatParam`. -/
structure FormatParam where
  FormatValue : String
  deriving DecidableEq, Repr

namespace FormatParam

/-- The zero value `FormatParam{}`. -/
def zero : FormatParam := ⟨""⟩

/-- The method `Format`. -/
def Format (f : FormatParam) : String :=
  if f.FormatValue = "" then "strict_date_optional_time||epoch_millis" else f.FormatValue

/-- The method `SetFormat`. -/
def SetFormat (f : FormatParam) (v : String) : FormatParam :=
  if v ≠ f.Format then { f with FormatValue := v } else f

end FormatParam

/-! ## What `range.go` takes from outside the listed sources -/

/-- The parts of package `dynamic` and of the mixins `timeZoneParam` and `boostParam` that
`range.go` uses; their sources are not among the embedded files, so they are parameters. -/
structure Deps where
  /-- Values passed as `interface{}` to a setter. -/
  Raw : Type
  /-- The type `dynamic.StringNumberOrTime`. -/
  SNT : Type
  /-- Errors of package `dynamic`. -/
  DynErr : Type
  /-- The type `dynamic.Number`. -/
  Number : Type
  /-- The type `float64`. -/
  Float64 : Type
  /-- The mixin `timeZoneParam`. -/
  TimeZoneParam : Type
  /-- The mixin `boostParam`. -/
  BoostParam : Type
  /-- A `StringNumberOrTime` passed where an `interface{}` is expected. -/
  box : SNT → Raw
  /-- The constructor `dynamic.NewStringNumberOrTimePtr(value...)`, with or without an
  argument. -/
  newSNT : Option Raw → SNT
  /-- The method `Set` of `*StringNumberOrTime`: the value held afterwards, or the error. -/
  set : SNT → Raw → Except DynErr SNT
  /-- The method `IsNilOrZero`. -/
  isNilOrZero : SNT → Bool
  /-- The method `Float` of `dynamic.Number`. -/
  numberFloat : Number → Option Float64
  /-- The zero value `timeZoneParam{}`. -/
  zeroTimeZone : TimeZoneParam
  /-- The method `SetTimeZone`. -/
  setTimeZone : TimeZoneParam → String → TimeZoneParam
  /-- The zero value `boostParam{}`. -/
  zeroBoost : BoostParam
  /-- The method `SetBoost`. -/
  setBoost : BoostParam → Float64 → BoostParam
  /-- The constructor `NewQueryError(err, type)`. -/
  NewQueryError : Error DynErr → Kind → Error DynErr

/-! ## `search/range.go` -/

/-- The struct `Range` (the params value). -/
structure Range (D : Deps) where
  Field : String
  GreaterThan : D.SNT
  GreaterThanOrEqualTo : D.SNT
  LessThan : D.SNT
  LessThanOrEqualTo : D.SNT
  Format : String
  TimeZone : String
  Boost : D.Number

/-- The struct `RangeRule`; a nil bound pointer is `none`. -/
structure RangeRule (D : Deps) where
  GreaterThanValue : Option D.SNT
  GreaterThanOrEqualToValue : Option D.SNT
  LessThanValue : Option D.SNT
  LessThanOrEqualToValue : Option D.SNT
  formatParam : FormatParam
  timeZoneParam : D.TimeZoneParam
  boostParam : D.BoostParam

namespace RangeRule

variable {D : Deps}

/-- The zero value `RangeRule{}`. -/
def zero (D : Deps) : RangeRule D :=
  { GreaterThanValue := none
    GreaterThanOrEqualToValue := none
    LessThanValue := none
    LessThanOrEqualToValue := none
    formatParam := FormatParam.zero
    timeZoneParam := D.zeroTimeZone
    boostParam := D.zeroBoost }

/-- The getter `GreaterThan`. -/
def GreaterThan (r : RangeRule D) : Option D.SNT := r.GreaterThanValue

/-- The getter `GreaterThanOrEqualTo` (it reads `GreaterThanValue`, as the source does). -/
def GreaterThanOrEqualTo (r : RangeRule D) : Option D.SNT := r.GreaterThanValue

/-- The getter `LessThan`. -/
def LessThan (r : RangeRule D) : Option D.SNT := r.LessThanValue

/-- The getter `LessThanOrEqualTo`. -/
def LessThanOrEqualTo (r : RangeRule D) : Option D.SNT := r.LessThanOrEqualToValue

/-- The method `SetGreaterThan`. -/
def SetGreaterThan (r : RangeRule D) (value : D.Raw) :
    RangeRule D × Option (Error D.DynErr) :=
  let r := { r with GreaterThanValue := none }
  match D.set (D.newSNT none) value with
  | .error err => (r, some (.dynamic err))
  | .ok v =>
    if D.isNilOrZero v then (r, none)
    else ({ r with GreaterThanValue := some v }, none)

/-- The method `SetGreaterThanOrEqualTo`. -/
def SetGreaterThanOrEqualTo (r : RangeRule D) (value : D.Raw) :
    RangeRule D × Option (Error D.DynErr) :=
  let r := { r with GreaterThanOrEqualToValue := none }
  match D.set (D.newSNT (some value)) value with
  | .error err => (r, some (.dynamic err))
  | .ok v =>
    if D.isNilOrZero v then (r, none)
    else ({ r with GreaterThanOrEqualToValue := some v }, none)

/-- The method `SetLessThan`. -/
def SetLessThan (r : RangeRule D) (value : D.Raw) :
    RangeRule D × Option (Error D.DynErr) :=
  let r := { r with LessThanValue := none }
  match D.set (D.newSNT none) value with
  | .error err => (r, some (.dynamic err))
  | .ok v =>
    if D.isNilOrZero v then (r, none)
    else ({ r with LessThanValue := some v }, none)

/-- The method `SetLessThanOrEqualTo`. -/
def SetLessThanOrEqualTo (r : RangeRule D) (value : D.Raw) :
    RangeRule D × Option (Error D.DynErr) :=
  let r := { r with LessThanOrEqualToValue := none }
  match D.set (D.newSNT none) value with
  | .error err => (r, some (.dynamic err))
  | .ok v =>
    if D.isNilOrZero v then (r, none)
    else ({ r with LessThanOrEqualToValue := some v }, none)

/-- The promoted method `SetFormat`. -/
def SetFormat (r : RangeRule D) (v : String) : RangeRule D :=
  { r with formatParam := r.formatParam.SetFormat v }

/-- The promoted method `SetBoost`. -/
def SetBoost (r : RangeRule D) (b : D.Float64) : RangeRule D :=
  { r with boostParam := D.setBoost r.boostParam b }

/-- The promoted method `SetTimeZone`. -/
def SetTimeZone (r : RangeRule D) (v : String) : RangeRule D :=
  { r with timeZoneParam := D.setTimeZone r.timeZoneParam v }

/-- The method `Type` of `RangeRule`. -/
def Type_ (_r : RangeRule D) : Kind := Kind.TypeBoolean

end RangeRule

namespace Range

variable {D : Deps}

/-- The method `Range` of the params value: the rule built so far and the error. -/
def Range (r : Range D) : RangeRule D × Option (Error D.DynErr) :=
  let q := RangeRule.zero D
  match q.SetGreaterThan (D.box r.GreaterThan) with
  | (q, some err) => (q, some err)
  | (q, none) =>
  match q.SetGreaterThan (D.box r.GreaterThanOrEqualTo) with
  | (q, some err) => (q, some err)
  | (q, none) =>
  match q.SetLessThan (D.box r.LessThan) with
  | (q, some err) => (q, some err)
  | (q, none) =>
  match q.SetLessThanOrEqualTo (D.box r.LessThanOrEqualTo) with
  | (q, some err) => (q, some err)
  | (q, none) =>
  let q := q.SetFormat r.Format
  let q := match D.numberFloat r.Boost with
    | some b => q.SetBoost b
    | none => q
  let q := q.SetTimeZone r.TimeZone
  (q, none)

/-- The method `Rule`. -/
def Rule (r : search.Range D) : RangeRule D × Option (Error D.DynErr) := r.Range

/-- The method `Type` of `Range`. -/
def Type_ (_r : search.Range D) : Kind := Kind.TypeBoolean

end Range

/-- The struct `RangeQuery`; `RangeValue = none` is the nil map, a nil `*RangeRule` entry is
`none`. -/
structure RangeQuery (D : Deps) where
  RangeValue : Option (GoMap (Option (RangeRule D)))

namespace RangeQuery

variable {D : Deps}

/-- The method `AssignRange`. -/
def AssignRange (r : RangeQuery D) (field : String) (value : Range D) :
    RangeQuery D × Option (Error D.DynErr) :=
  if field = "" then
    (r, some (D.NewQueryError Error.ErrFieldRequired Kind.TypeRange))
  else
    let m : GoMap (Option (RangeRule D)) :=
      match r.RangeValue with
      | none => GoMap.empty
      | some m => m
    let r : RangeQuery D := { r with RangeValue := some m }
    match value.Range with
    | (_, some err) => (r, some (Error.QueryError field err Kind.TypeRange))
    | (qv, none) => ({ r with RangeValue := some (m.set field (some qv)) }, none)

/-- The method `AddRange`. -/
def AddRange (r : RangeQuery D) (field : String) (value : Range D) :
    RangeQuery D × Option (Error D.DynErr) :=
  let m : GoMap (Option (RangeRule D)) :=
    match r.RangeValue with
    | none => GoMap.empty
    | some m => m
  let r : RangeQuery D := { r with RangeValue := some m }
  match m.get field with
  | some _ => (r, some (Error.QueryError field Error.ErrFieldExists Kind.TypeRange))
  | none => r.AssignRange field value

/-- The read `r.RangeValue[field]`; reading a nil map finds nothing. -/
def index (r : RangeQuery D) (field : String) : Option (Option (RangeRule D)) :=
  match r.RangeValue with
  | none => none
  | some m => m.get field

/-- The method `RemoveRange`. -/
def RemoveRange (r : RangeQuery D) (field : String) : RangeQuery D :=
  { r with RangeValue := r.RangeValue.map fun m => ⟨m.entries.filter fun e => e.1 ≠ field⟩ }

end RangeQuery

/-! ## `search/fuzziness.go` -/

/-- The constant `DefaultFuzziness`. -/
def DefaultFuzziness : String := "0"

/-- Modelled from the spec: the wire-key constant `paramFuzziness`, declared outside the
listed sources; section 6 names the key `fuzziness`. -/
def paramFuzziness : String := "fuzziness"

/-- Modelled from the spec: the wire-key constant `paramFuzzyRewrite`, declared outside the
listed sources; section 6 names the key `fuzzy_rewrite`. -/
def paramFuzzyRewrite : String := "fuzzy_rewrite"

/-- The `Rewrite` vocabulary that `fuzziness.go` uses; it is declared outside the listed
sources, so it is a parameter. -/
structure RewriteVocab where
  /-- The constant `RewriteConstantScore`. -/
  RewriteConstantScore : Rewrite
  /-- The constant `RewriteTopTermsBlendedFreqsN`. -/
  RewriteTopTermsBlendedFreqsN : Rewrite
  /-- The method `IsValid` of `Rewrite`. -/
  IsValid : Rewrite → Bool

/-- The interface `WithFuzziness`, as the table of its five methods. -/
structure WithFuzziness (σ : Type) where
  Fuzziness : σ → String
  SetFuzziness : σ → String → σ
  FuzzyRewrite : σ → Rewrite
  SetFuzzyRewrite : σ → Rewrite → σ
  DefaultFuzzyRewrite : σ → Rewrite

/-- The type assertion `x.(WithFuzziness)`: every method of the interface has to be in the
method set with the signature the interface declares. -/
def asWithFuzziness {σ E : Type} (ms : Methods σ E) : Option (WithFuzziness σ) :=
  match lookupMethod ms "Fuzziness", lookupMethod ms "SetFuzziness",
    lookupMethod ms "FuzzyRewrite", lookupMethod ms "SetFuzzyRewrite",
    lookupMethod ms "DefaultFuzzyRewrite" with
  | some (.getString f), some (.setString sf), some (.getRewrite r), some (.setRewrite sr),
    some (.getRewrite d) => some ⟨f, sf, r, sr, d⟩
  | _, _, _, _, _ => none

/-- The struct `FuzzinessParam`. -/
structure FuzzinessParam where
  FuzzinessValue : String
  FuzzyRewriteValue : Rewrite
  deriving DecidableEq, Repr

namespace FuzzinessParam

/-- The zero value `FuzzinessParam{}`. -/
def zero : FuzzinessParam := ⟨"", ""⟩

/-- The method `Fuzziness`. -/
def Fuzziness (f : FuzzinessParam) : String := f.FuzzinessValue

/-- The method `SetFuzziness`. -/
def SetFuzziness (f : FuzzinessParam) (v : String) : FuzzinessParam :=
  if f.Fuzziness ≠ v then { f with FuzzinessValue := v } else f

/-- The method `DefaultFuzzyRewrite`. -/
def DefaultFuzzyRewrite (R : RewriteVocab) (f : FuzzinessParam) : Rewrite :=
  if f.Fuzziness ≠ DefaultFuzziness then R.RewriteTopTermsBlendedFreqsN
  else R.RewriteConstantScore

/-- The method `FuzzyRewrite`. -/
def FuzzyRewrite (R : RewriteVocab) (f : FuzzinessParam) : Rewrite :=
  if f.FuzzyRewriteValue ≠ "" then f.FuzzyRewriteValue else f.DefaultFuzzyRewrite R

/-- The method `SetFuzzyRewrite`. -/
def SetFuzzyRewrite {E : Type} (R : RewriteVocab) (f : FuzzinessParam) (v : Rewrite) :
    FuzzinessParam × Option (Error E) :=
  if !R.IsValid v then (f, some Error.ErrInvalidRewrite)
  else if f.FuzzyRewrite R ≠ v then ({ f with FuzzyRewriteValue := v }, none)
  else (f, none)

/-- The method set of `*FuzzinessParam`, with the signatures of the declarations in
`fuzziness.go`. -/
def methods (E : Type) (R : RewriteVocab) : Methods FuzzinessParam E :=
  [ ("Fuzziness", .getString Fuzziness),
    ("SetFuzziness", .setString SetFuzziness),
    ("FuzzyRewrite", .getRewrite (FuzzyRewrite R)),
    ("DefaultFuzzyRewrite", .getRewrite (DefaultFuzzyRewrite R)),
    ("SetFuzzyRewrite", .setRewriteErr (SetFuzzyRewrite R)) ]

end FuzzinessParam

/-- The hook `marshalFuzzinessParam`; `data` is an allocated map. -/
def marshalFuzzinessParam {σ E α : Type} (data : GoMap (Any α)) (source : Dyn σ E) :
    GoMap (Any α) × Option (Error E) :=
  match asWithFuzziness source.methods with
  | some a =>
    if a.Fuzziness source.value ≠ DefaultFuzziness then
      (data.set paramFuzziness (Any.string (a.Fuzziness source.value)), none)
    else (data, none)
  | none => (data, none)

/-- The hook `marshalFuzzyRewriteParam`; `data` is an allocated map. -/
def marshalFuzzyRewriteParam {σ E α : Type} (data : GoMap (Any α)) (source : Dyn σ E) :
    GoMap (Any α) × Option (Error E) :=
  match asWithFuzziness source.methods with
  | some a =>
    if a.FuzzyRewrite source.value ≠ a.DefaultFuzzyRewrite source.value then
      (data.set paramFuzzyRewrite (Any.rewrite (a.FuzzyRewrite source.value)), none)
    else (data, none)
  | none => (data, none)

/-! ## `search/matchBooleanPrefix.go` -/

/-- The mixins that `MatchBooleanPrefix` embeds next to `FuzzinessParam`; their sources are
not among the embedded files, so their types are parameters. -/
structure MixinTypes where
  MinimumShouldMatchParam : Type
  OperatorParam : Type
  AnalyzerParam : Type
  PrefixLengthParam : Type
  FuzzyTranspositionsParam : Type

/-- The struct `MatchBooleanPrefix`. -/
structure MatchBooleanPrefix (X : MixinTypes) where
  Query : String
  minimumShouldMatchParam : X.MinimumShouldMatchParam
  operatorParam : X.OperatorParam
  analyzerParam : X.AnalyzerParam
  fuzzinessParam : FuzzinessParam
  prefixLengthParam : X.PrefixLengthParam
  fuzzyTranspositionsParam : X.FuzzyTranspositionsParam

namespace MatchBooleanPrefix

variable {X : MixinTypes}

/-- The promoted method `SetFuzziness`. -/
def SetFuzziness (m : MatchBooleanPrefix X) (v : String) : MatchBooleanPrefix X :=
  { m with fuzzinessParam := m.fuzzinessParam.SetFuzziness v }

/-- The promoted method `Fuzziness`. -/
def Fuzziness (m : MatchBooleanPrefix X) : String := m.fuzzinessParam.Fuzziness

/-- The method set of `*MatchBooleanPrefix`: the struct declares no method of its own, so
it is the methods promoted from `FuzzinessParam` and the methods promoted from the other
embedded mixins (`others`). -/
def methods (E : Type) (R : RewriteVocab) (others : Methods (MatchBooleanPrefix X) E) :
    Methods (MatchBooleanPrefix X) E :=
  (FuzzinessParam.methods E R).map (fun m =>
    (m.1, m.2.promote (fun c => c.fuzzinessParam) (fun c f => { c with fuzzinessParam := f })))
  ++ others

end MatchBooleanPrefix

end search

namespace mapping

/-! ## `mapping/norms.go` -/

/-- The struct `NormsParam`; a nil `NormsValue` is `none`. -/
structure NormsParam where
  NormsValue : Option Bool
  deriving DecidableEq, Repr

namespace NormsParam

/-- The zero value `NormsParam{}`. -/
def zero : NormsParam := ⟨none⟩

/-- The method `Norms`. -/
def Norms (n : NormsParam) : Bool :=
  match n.NormsValue with
  | some b => b
  | none => true

/-- The method `SetNorms`. -/
def SetNorms (n : NormsParam) (v : Bool) : NormsParam :=
  if n.Norms ≠ v then { n with NormsValue := some v } else n

end NormsParam

end mapping

namespace picker

/-! ## `transpositions_param.go` -/

/-- The constant `DefaultTranspositions`. -/
def DefaultTranspositions : Bool := true

/-- The interface `WithTranspositions`, as the table of its two methods. -/
structure WithTranspositions (σ : Type) where
  Transpositions : σ → Bool
  SetTranspositions : σ → Bool → σ

/-- The type assertion `x.(WithTranspositions)`. -/
def asWithTranspositions {σ E : Type} (ms : Methods σ E) : Option (WithTranspositions σ) :=
  match lookupMethod ms "Transpositions", lookupMethod ms "SetTranspositions" with
  | some (.getBool f), some (.setBool sf) => some ⟨f, sf⟩
  | _, _ => none

/-- The struct `transpositionsParam`; a nil `transpositions` is `none`. -/
structure transpositionsParam where
  transpositions : Option Bool
  deriving DecidableEq, Repr

namespace transpositionsParam

/-- The zero value `transpositionsParam{}`. -/
def zero : transpositionsParam := ⟨none⟩

/-- The method `Transpositions`. -/
def Transpositions (t : transpositionsParam) : Bool :=
  match t.transpositions with
  | none => DefaultTranspositions
  | some b => b

/-- The method `SetTranspositions`. -/
def SetTranspositions (t : transpositionsParam) (v : Bool) : transpositionsParam :=
  { t with transpositions := some v }

/-- The method set of `*transpositionsParam`. -/
def methods (E : Type) : Methods transpositionsParam E :=
  [ ("Transpositions", .getBool Transpositions),
    ("SetTranspositions", .setBool SetTranspositions) ]

/-- A `*transpositionsParam` held in an `interface{}`. -/
def toDyn (E : Type) (t : transpositionsParam) : Dyn transpositionsParam E :=
  ⟨t, methods E⟩

end transpositionsParam

/-- The hook `marshalTranspositionsParam`; `data` is an allocated map. -/
def marshalTranspositionsParam {σ E α : Type} (data : GoMap (Any α)) (source : Dyn σ E) :
    GoMap (Any α) × Option (search.Error E) :=
  match asWithTranspositions source.methods with
  | some b =>
    if !b.Transpositions source.value then
      (data.set "transpositions" (Any.bool (b.Transpositions source.value)), none)
    else (data, none)
  | none => (data, none)

end picker

namespace search

/-! ## `search/range.go`: the struct tags of `RangeRule` -/

/-- The struct tag of a field: the Go field and the keys its `json` and `bson` tags give. -/
structure WireTag where
  field : String
  json : String
  bson : String
  deriving DecidableEq, Repr

namespace RangeRule

/-- The struct tags of the four bounds of `RangeRule`, in declaration order (each also says
`omitempty`). -/
def tags : List WireTag :=
  [ ⟨"GreaterThanValue", "gt", "gt"⟩,
    ⟨"GreaterThanOrEqualToValue", "gte", "gt"⟩,
    ⟨"LessThanValue", "lt", "lt"⟩,
    ⟨"LessThanOrEqualToValue", "lte", "lte"⟩ ]

/-- The bounds of a rule that are not nil (`omitempty` drops a nil bound), each with the key
that its tag gives (`key` is `WireTag.json` or `WireTag.bson`).  This is the assignment of
keys by the tags; what an encoder does with the keys is `jsonBounds` and `bsonBounds`. -/
def wireBounds {D : Deps} (key : WireTag → String) (r : RangeRule D) : List (String × D.SNT) :=
  (tags.zip [r.GreaterThanValue, r.GreaterThanOrEqualToValue, r.LessThanValue,
    r.LessThanOrEqualToValue]).filterMap fun tv => tv.2.map fun x => (key tv.1, x)

/-- The first key of a list that occurs again further on. -/
def firstDuplicate : List String → Option String
  | [] => none
  | k :: ks => if k ∈ ks then some k else firstDuplicate ks

/-- The bounds that the JSON encoding writes: the `json` keys of the four tags are distinct,
so every bound that is not nil goes under its own key. -/
def jsonBounds {D : Deps} (r : RangeRule D) : List (String × D.SNT) :=
  wireBounds WireTag.json r

/-- The bounds that the bson encoding writes: the encoder refuses a struct in which two
fields have the same key, whatever the fields hold, and writes nothing. -/
def bsonBounds {D : Deps} (r : RangeRule D) : Except String (List (String × D.SNT)) :=
  match firstDuplicate (tags.map WireTag.bson) with
  | some k => .error ("duplicated key " ++ k)
  | none => .ok (wireBounds WireTag.bson r)

end RangeRule

end search

namespace picker

/-! ## `picker`: errors and panics -/

/-- Values of Go's `error` that the embedded code of package `picker` returns; `dynamic e`
is an error handed back by package `dynamic`. -/
inductive Error (E : Type) where
  | ErrScalingFactorRequired
  | dynamic (e : E)
  /-- The failure of the boolean coercion (section 4.1 of the spec: `NotBoolean`). -/
  | NotBoolean
  /-- An error of `encoding/json`. -/
  | json (msg : String)
  /-- A non-empty `MappingError`, the aggregate of the errors appended to it. -/
  | MappingError (errs : List (Error E))

/-- How a call ends: it returns, or it panics with a message. -/
inductive Outcome (α : Type) where
  | returns (a : α)
  | panics (msg : String)

/-! ## `scaling_factor.go` -/

/-- The parts of package `dynamic` that `scaling_factor.go` uses; they are parameters. -/
structure NumberDeps where
  /-- Values passed as `interface{}` to the setter. -/
  Raw : Type
  /-- The type `dynamic.Number`. -/
  Number : Type
  /-- Errors of package `dynamic`. -/
  DynErr : Type
  /-- The type `float64`. -/
  Float64 : Type
  /-- The constructor `dynamic.NewNumber(v)`. -/
  NewNumber : Raw → Except DynErr Number
  /-- The method `Float64` of `dynamic.Number`: the value, when there is one. -/
  numberFloat64 : Number → Option Float64

/-- The struct `scalingFactorParam`. -/
structure scalingFactorParam (N : NumberDeps) where
  scalingFactor : N.Float64

namespace scalingFactorParam

variable {N : NumberDeps}

/-- The method `ScalingFactor`. -/
def ScalingFactor (sf : scalingFactorParam N) : N.Float64 := sf.scalingFactor

/-- The method `SetScalingFactor`. -/
def SetScalingFactor (sf : scalingFactorParam N) (v : N.Raw) :
    scalingFactorParam N × Option (Error N.DynErr) :=
  match N.NewNumber v with
  | .error err => (sf, some (.dynamic err))
  | .ok n =>
    match N.numberFloat64 n with
    | some f => ({ sf with scalingFactor := f }, none)
    | none => (sf, some Error.ErrScalingFactorRequired)

end scalingFactorParam

/-! ## `regexp_query.go` -/

/-- The types that `regexp_query.go` embeds and whose sources are not among the embedded
files; they are parameters. -/
structure RegexpTypes where
  /-- The mixin `nameParam`. -/
  nameParam : Type
  /-- The mixin `completeClause`. -/
  completeClause : Type
  /-- The zero value `nameParam{}`. -/
  zeroName : nameParam
  /-- The zero value `completeClause{}`. -/
  zeroComplete : completeClause
  /-- The type `[]byte`. -/
  Bytes : Type

/-- The struct `RegexpQueryParams`. -/
structure RegexpQueryParams (X : RegexpTypes) where
  Name : String
  completeClause : X.completeClause

/-- The struct `RegexpQuery`. -/
structure RegexpQuery (X : RegexpTypes) where
  nameParam : X.nameParam
  completeClause : X.completeClause

namespace RegexpQuery

variable {X : RegexpTypes} {E : Type}

/-- The zero value `RegexpQuery{}`. -/
def zero (X : RegexpTypes) : RegexpQuery X := ⟨X.zeroName, X.zeroComplete⟩

/-- The method `Clear` of `*RegexpQuery`; a nil receiver is `none`, and the result is what
the receiver points to afterwards. -/
def Clear (q : Option (RegexpQuery X)) : Outcome (Option (RegexpQuery X)) :=
  match q with
  | none => .returns none
  | some _ => .returns (some (zero X))

/-- The method `UnmarshalJSON` of `*RegexpQuery`. -/
def UnmarshalJSON (_q : Option (RegexpQuery X)) (_data : X.Bytes) :
    Outcome (Option (RegexpQuery X) × Option (Error E)) :=
  .panics "not implemented"

/-- The method `MarshalJSON` of `RegexpQuery`. -/
def MarshalJSON (_q : RegexpQuery X) : Outcome (X.Bytes × Option (Error E)) :=
  .panics "not implemented"

/-- The method `IsEmpty` of `*RegexpQuery`. -/
def IsEmpty (_q : Option (RegexpQuery X)) : Outcome Bool :=
  .panics "not implemented"

end RegexpQuery

namespace RegexpQueryParams

variable {X : RegexpTypes} {E : Type}

/-- The method `Regexp` of `RegexpQueryParams`: the clause and the error, when it returns. -/
def Regexp (_p : RegexpQueryParams X) :
    Outcome (Option (RegexpQuery X) × Option (Error E)) :=
  let _q := RegexpQuery.zero X
  .panics "not implemented"

/-- The method `Clause` of `RegexpQueryParams`. -/
def Clause (p : RegexpQueryParams X) : Outcome (Option (RegexpQuery X) × Option (Error E)) :=
  p.Regexp

end RegexpQueryParams

end picker


/-! ## `encoding/json`, as far as `rank_feature_field.go` uses it -/

/-- A JSON value; a number is kept as its literal. -/
inductive Json where
  | null
  | bool (b : Bool)
  | number (literal : String)
  | string (s : String)
  | array (elems : List Json)
  | object (members : List (String × Json))

/-- A byte string as the JSON decoder reads it: not a JSON text, or the JSON value that it
spells.  `json.Marshal` produces the text of a value. -/
inductive WireData where
  | malformed
  | text (j : Json)

/-- A value held in an `interface{}`: a value that JSON decoding gives (`null` is Go's
`nil`, then `bool`, `float64`, `string`, `[]interface{}` and `map[string]interface{}`), or a
value of any other type. -/
inductive GoValue where
  | json (j : Json)
  | other (typeName : String)

/-- The case folding of the JSON decoder on one character, as far as it can reach an ASCII
letter: an ASCII capital goes to its small letter, and so do the two other characters whose
simple case folding is an ASCII letter, the long s (U+017F, to `s`) and the Kelvin sign
(U+212A, to `k`); every other character is kept. -/
def jsonFoldChar (c : Char) : Char :=
  if c = Char.ofNat 0x17F then 's'
  else if c = Char.ofNat 0x212A then 'k'
  else c.toLower

/-- The key match of the JSON decoder: the member name equals the tag name, exactly or up to
case folding.  The tag names of the embedded structs are ASCII, and against an ASCII name
the comparison of the folded characters is the decoder's match. -/
def jsonKeyMatches (member tagName : String) : Bool :=
  member.data.map jsonFoldChar == tagName.data.map jsonFoldChar

namespace picker

/-! ## The aggregate `MappingError` and the mixin `positiveScoreImpactParam` -/

/-- Modelled from the spec: the error aggregate `MappingError`, whose source is not among the
embedded files.  Section 3: an ordered sequence of errors, created empty, appended to, and
converted to a single failure (or none) at the end. -/
structure MappingErrors (E : Type) where
  errs : List (Error E)

namespace MappingErrors

variable {E : Type}

/-- The literal `&MappingError{}`. -/
def empty : MappingErrors E := ⟨[]⟩

/-- Modelled from the spec: the method `Append` puts the error at the end of the sequence. -/
def Append (e : MappingErrors E) (err : Error E) : MappingErrors E := ⟨e.errs ++ [err]⟩

/-- Modelled from the spec: the method `ErrorOrNil` is nil for an aggregate with zero entries
and the aggregate otherwise. -/
def ErrorOrNil (e : MappingErrors E) : Option (Error E) :=
  match e.errs with
  | [] => none
  | errs => some (Error.MappingError errs)

end MappingErrors

/-- Modelled from the spec: the mixin `positiveScoreImpactParam`, whose source is not among
the embedded files.  Section 6: `positive_score_impact` is an optional bool without a forced
default and is omitted when unset, so the mixin holds no value or a bool. -/
structure positiveScoreImpactParam where
  positiveScoreImpact : Option Bool
  deriving DecidableEq, Repr

namespace positiveScoreImpactParam

/-- The zero value `positiveScoreImpactParam{}`. -/
def zero : positiveScoreImpactParam := ⟨none⟩

/-- Modelled from the spec: `positiveScoreImpact.Value()` is nil when the mixin is unset and
the bool otherwise. -/
def Value (p : positiveScoreImpactParam) : Json :=
  match p.positiveScoreImpact with
  | none => Json.null
  | some b => Json.bool b

/-- Modelled from the spec: the method `SetPositiveScoreImpact`.  Section 4.1: the boolean
coercion accepts native booleans and the literal strings for true and false
(case-insensitive), anything else fails with the not-boolean error; an absent value leaves
the mixin unset. -/
def SetPositiveScoreImpact {E : Type} (p : positiveScoreImpactParam) (v : GoValue) :
    positiveScoreImpactParam × Option (Error E) :=
  match v with
  | .json .null => ({ p with positiveScoreImpact := none }, none)
  | .json (.bool b) => ({ p with positiveScoreImpact := some b }, none)
  | .json (.string s) =>
    if s.data.map Char.toLower == "true".data then ({ p with positiveScoreImpact := some true }, none)
    else if s.data.map Char.toLower == "false".data then
      ({ p with positiveScoreImpact := some false }, none)
    else (p, some Error.NotBoolean)
  | _ => (p, some Error.NotBoolean)

end positiveScoreImpactParam

/-! ## `rank_feature_field.go` -/

/-- The string type `FieldType`. -/
abbrev FieldType := String

/-- The `FieldType` constants that `rank_feature_field.go` uses; they are declared outside
the listed sources, so they are parameters. -/
structure FieldTypes where
  FieldTypeRankFeature : FieldType
  FieldTypeRankFeatures : FieldType

/-- The struct `rankFeatureField`, the wire form. -/
structure rankFeatureField where
  PositiveScoreImpact : Json
  Type_ : FieldType

/-- The struct `RankFeatureFieldParams`. -/
structure RankFeatureFieldParams where
  PositiveScoreImpact : GoValue

/-- The struct `RankFeatureField`. -/
structure RankFeatureField where
  positiveScoreImpactParam : positiveScoreImpactParam
  deriving DecidableEq, Repr

/-- The call `json.Marshal(rankFeatureField{...})`: `positive_score_impact` is written unless
the interface value is nil (`omitempty`), `type` is always written. -/
def marshalRankFeatureField (w : rankFeatureField) : WireData :=
  WireData.text (Json.object
    ((match w.PositiveScoreImpact with
      | .null => []
      | v => [("positive_score_impact", v)]) ++ [("type", Json.string w.Type_)]))

/-- The members of a JSON object read into a `RankFeatureFieldParams`, in the order of the
text: a member that matches `positive_score_impact` sets the field, any other is skipped. -/
def readMembers (p : RankFeatureFieldParams) : List (String × Json) → RankFeatureFieldParams
  | [] => p
  | (k, v) :: rest =>
    if jsonKeyMatches k "positive_score_impact" then
      readMembers { p with PositiveScoreImpact := GoValue.json v } rest
    else readMembers p rest

/-- The call `json.Unmarshal(data, &p)` on `var p RankFeatureFieldParams`: a text that is
not JSON and a JSON value that is neither an object nor `null` are errors. -/
def unmarshalRankFeatureFieldParams {E : Type} (data : WireData) :
    Except (Error E) RankFeatureFieldParams :=
  match data with
  | .malformed => .error (Error.json "invalid character")
  | .text (.object members) => .ok (readMembers ⟨GoValue.json Json.null⟩ members)
  | .text .null => .ok ⟨GoValue.json Json.null⟩
  | .text _ => .error (Error.json "cannot unmarshal into Go value of type RankFeatureFieldParams")

namespace RankFeatureField

/-- The zero value `RankFeatureField{}`. -/
def zero : RankFeatureField := ⟨positiveScoreImpactParam.zero⟩

/-- The method `Type` of `RankFeatureField`. -/
def Type_ (T : FieldTypes) (_f : RankFeatureField) : FieldType := T.FieldTypeRankFeature

/-- The promoted method `SetPositiveScoreImpact`. -/
def SetPositiveScoreImpact {E : Type} (f : RankFeatureField) (v : GoValue) :
    RankFeatureField × Option (Error E) :=
  match (f.positiveScoreImpactParam.SetPositiveScoreImpact v :
      picker.positiveScoreImpactParam × Option (Error E)) with
  | (p, err) => ({ f with positiveScoreImpactParam := p }, err)

/-- The method `MarshalJSON`: the bytes and the error. -/
def MarshalJSON {E : Type} (T : FieldTypes) (f : RankFeatureField) :
    WireData × Option (Error E) :=
  (marshalRankFeatureField
    { PositiveScoreImpact := f.positiveScoreImpactParam.Value, Type_ := f.Type_ T }, none)

/-- The method `MarshalBSON`. -/
def MarshalBSON {E : Type} (T : FieldTypes) (f : RankFeatureField) :
    WireData × Option (Error E) :=
  f.MarshalJSON T

end RankFeatureField

namespace RankFeatureFieldParams

/-- The method `Type` of `RankFeatureFieldParams`. -/
def Type_ (T : FieldTypes) (_p : RankFeatureFieldParams) : FieldType := T.FieldTypeRankFeature

/-- The method `RankFeature`: the field built and the error. -/
def RankFeature {E : Type} (p : RankFeatureFieldParams) : RankFeatureField × Option (Error E) :=
  let f := RankFeatureField.zero
  let e : MappingErrors E := MappingErrors.empty
  match f.SetPositiveScoreImpact p.PositiveScoreImpact with
  | (f, some err) => (f, (e.Append err).ErrorOrNil)
  | (f, none) => (f, e.ErrorOrNil)

/-- The method `Field` of `RankFeatureFieldParams`. -/
def Field {E : Type} (p : RankFeatureFieldParams) : RankFeatureField × Option (Error E) :=
  p.RankFeature

end RankFeatureFieldParams

/-- The constructor `NewRankFeatureField`. -/
def NewRankFeatureField {E : Type} (params : RankFeatureFieldParams) :
    RankFeatureField × Option (Error E) :=
  params.RankFeature

namespace RankFeatureField

/-- The method `UnmarshalJSON` of `*RankFeatureField`: the receiver afterwards and the
error. -/
def UnmarshalJSON {E : Type} (f : RankFeatureField) (data : WireData) :
    RankFeatureField × Option (Error E) :=
  match unmarshalRankFeatureFieldParams data with
  | .error err => (f, some err)
  | .ok p =>
    match p.RankFeature with
    | (_, some err) => (f, some err)
    | (n, none) => (n, none)

/-- The method `UnmarshalBSON` of `*RankFeatureField`. -/
def UnmarshalBSON {E : Type} (f : RankFeatureField) (data : WireData) :
    RankFeatureField × Option (Error E) :=
  f.UnmarshalJSON data

end RankFeatureField

end picker


namespace search

/-! ## `search/fuzziness.go`: the decoding hooks -/

/-- The part of `gjson.Result` that the decoding hooks read. -/
structure GjsonResult where
  Str : String
  deriving DecidableEq, Repr

/-- The hook `unmarshalFuzzinessParam`: the target afterwards and the error. -/
def unmarshalFuzzinessParam {σ E : Type} (data : GjsonResult) (target : Dyn σ E) :
    Dyn σ E × Option (Error E) :=
  match asWithFuzziness target.methods with
  | some r => ({ target with value := r.SetFuzziness target.value data.Str }, none)
  | none => (target, none)

/-- The hook `unmarshalFuzzyRewriteParam`: the target afterwards and the error. -/
def unmarshalFuzzyRewriteParam {σ E : Type} (data : GjsonResult) (target : Dyn σ E) :
    Dyn σ E × Option (Error E) :=
  match asWithFuzziness target.methods with
  | some r => ({ target with value := r.SetFuzzyRewrite target.value data.Str }, none)
  | none => (target, none)

end search

namespace picker

/-! ## `transpositions_param.go`: the decoding hook -/

/-- The parts of package `dynamic` that `unmarshalTranspositionsParam` uses; they are
parameters. -/
structure BoolDeps where
  /-- The type `dynamic.JSON`. -/
  JSON : Type
  /-- The type `dynamic.Bool`. -/
  DynBool : Type
  /-- Errors of package `dynamic`. -/
  DynErr : Type
  /-- The constructor `dynamic.NewBool(value)`. -/
  NewBool : JSON → Except DynErr DynBool
  /-- The method `Bool` of `dynamic.Bool`: the value, when there is one. -/
  boolValue : DynBool → Option Bool

/-- The hook `unmarshalTranspositionsParam`: the target afterwards and the error. -/
def unmarshalTranspositionsParam {σ E : Type} (B : BoolDeps) (value : B.JSON)
    (target : Dyn σ E) : Dyn σ E × Option (Error B.DynErr) :=
  match asWithTranspositions target.methods with
  | some a =>
    match B.NewBool value with
    | .error err => (target, some (Error.dynamic err))
    | .ok b =>
      match B.boolValue b with
      | some v => ({ target with value := a.SetTranspositions target.value v }, none)
      | none => (target, none)
  | none => (target, none)

end picker


namespace search

/-! ## `search/range.go`: `SetRange` -/

namespace RangeQuery

variable {D : Deps}

/-- The loop `for k, v := range ranges` of `SetRange`, over the entries in the order in
which the iteration visits them: it returns at the first `AssignRange` that fails. -/
def setRangeLoop (r : RangeQuery D) :
    List (String × search.Range D) → RangeQuery D × Option (Error D.DynErr)
  | [] => (r, none)
  | (k, v) :: rest =>
    match r.AssignRange k v with
    | (r, some err) => (r, some err)
    | (r, none) => setRangeLoop r rest

/-- The method `SetRange`.  The entries of `ranges` are taken in the order in which the
iteration visits them; a Go map has every key once, and a nil map has no entries. -/
def SetRange (r : RangeQuery D) (ranges : GoMap (search.Range D)) :
    RangeQuery D × Option (Error D.DynErr) :=
  setRangeLoop { r with RangeValue := some GoMap.empty } ranges.entries

end RangeQuery

/-! ## `search/matchPhrase.go` -/

/-- The mixins that `MatchPhrase` embeds; their sources are not among the embedded files, so
their types are parameters. -/
structure PhraseMixinTypes where
  AnalyzerParam : Type
  ZeroTermsQueryParam : Type

/-- The struct `MatchPhrase`. -/
structure MatchPhrase (X : PhraseMixinTypes) where
  Query : String
  analyzerParam : X.AnalyzerParam
  zeroTermsQueryParam : X.ZeroTermsQueryParam

/-- The struct `MatchPhraseQuery`; `MatchPhrase = none` is the nil map. -/
structure MatchPhraseQuery (X : PhraseMixinTypes) where
  MatchPhrase : Option (GoMap (MatchPhrase X))

namespace MatchPhraseQuery

variable {X : PhraseMixinTypes}

/-- The method `SetMatchPhrase`: the write `mp.MatchPhrase[field] = matchPhrase`, which
panics when the map is nil. -/
def SetMatchPhrase (mp : MatchPhraseQuery X) (field : String)
    (matchPhrase : search.MatchPhrase X) : picker.Outcome (MatchPhraseQuery X) :=
  match mp.MatchPhrase with
  | none => .panics "assignment to entry in nil map"
  | some m => .returns { mp with MatchPhrase := some (m.set field matchPhrase) }

/-- The read `mp.MatchPhrase[field]`; reading a nil map finds nothing. -/
def index (mp : MatchPhraseQuery X) (field : String) : Option (search.MatchPhrase X) :=
  match mp.MatchPhrase with
  | none => none
  | some m => m.get field

end MatchPhraseQuery

end search

namespace picker

/-! ## `rank_feature_field.go`: the rank-features kind -/

/-- The struct `rankFeaturesField`, the wire form. -/
structure rankFeaturesField where
  PositiveScoreImpact : Json
  Type_ : FieldType

/-- The struct `RankFeaturesFieldParams`. -/
structure RankFeaturesFieldParams where
  PositiveScoreImpact : GoValue

/-- The struct `RankFeaturesField`. -/
structure RankFeaturesField where
  positiveScoreImpactParam : positiveScoreImpactParam
  deriving DecidableEq, Repr

/-- The call `json.Marshal(rankFeaturesField{...})`: `positive_score_impact` is written
unless the interface value is nil (`omitempty`), `type` is always written. -/
def marshalRankFeaturesField (w : rankFeaturesField) : WireData :=
  WireData.text (Json.object
    ((match w.PositiveScoreImpact with
      | .null => []
      | v => [("positive_score_impact", v)]) ++ [("type", Json.string w.Type_)]))

/-- The members of a JSON object read into a `RankFeaturesFieldParams`, in the order of the
text: a member that matches `positive_score_impact` sets the field, any other is skipped. -/
def readFeaturesMembers (p : RankFeaturesFieldParams) :
    List (String × Json) → RankFeaturesFieldParams
  | [] => p
  | (k, v) :: rest =>
    if jsonKeyMatches k "positive_score_impact" then
      readFeaturesMembers { p with PositiveScoreImpact := GoValue.json v } rest
    else readFeaturesMembers p rest

/-- The call `json.Unmarshal(data, &p)` on `var p RankFeaturesFieldParams`: a text that is
not JSON and a JSON value that is neither an object nor `null` are errors. -/
def unmarshalRankFeaturesFieldParams {E : Type} (data : WireData) :
    Except (Error E) RankFeaturesFieldParams :=
  match data with
  | .malformed => .error (Error.json "invalid character")
  | .text (.object members) => .ok (readFeaturesMembers ⟨GoValue.json Json.null⟩ members)
  | .text .null => .ok ⟨GoValue.json Json.null⟩
  | .text _ => .error (Error.json "cannot unmarshal into Go value of type RankFeaturesFieldParams")

namespace RankFeaturesField

/-- The zero value `RankFeaturesField{}`. -/
def zero : RankFeaturesField := ⟨positiveScoreImpactParam.zero⟩

/-- The method `Type` of `RankFeaturesField`. -/
def Type_ (T : FieldTypes) (_f : RankFeaturesField) : FieldType := T.FieldTypeRankFeatures

/-- The promoted method `SetPositiveScoreImpact`. -/
def SetPositiveScoreImpact {E : Type} (f : RankFeaturesField) (v : GoValue) :
    RankFeaturesField × Option (Error E) :=
  match (f.positiveScoreImpactParam.SetPositiveScoreImpact v :
      picker.positiveScoreImpactParam × Option (Error E)) with
  | (p, err) => ({ f with positiveScoreImpactParam := p }, err)

/-- The method `MarshalJSON`: the bytes and the error. -/
def MarshalJSON {E : Type} (T : FieldTypes) (f : RankFeaturesField) :
    WireData × Option (Error E) :=
  (marshalRankFeaturesField
    { PositiveScoreImpact := f.positiveScoreImpactParam.Value, Type_ := f.Type_ T }, none)

/-- The method `MarshalBSON`. -/
def MarshalBSON {E : Type} (T : FieldTypes) (f : RankFeaturesField) :
    WireData × Option (Error E) :=
  f.MarshalJSON T

end RankFeaturesField

namespace RankFeaturesFieldParams

/-- The method `Type` of `RankFeaturesFieldParams`. -/
def Type_ (T : FieldTypes) (_p : RankFeaturesFieldParams) : FieldType :=
  T.FieldTypeRankFeatures

/-- The method `RankFeatures`: the field built and the error. -/
def RankFeatures {E : Type} (p : RankFeaturesFieldParams) :
    RankFeaturesField × Option (Error E) :=
  let f := RankFeaturesField.zero
  let e : MappingErrors E := MappingErrors.empty
  match f.SetPositiveScoreImpact p.PositiveScoreImpact with
  | (f, some err) => (f, (e.Append err).ErrorOrNil)
  | (f, none) => (f, e.ErrorOrNil)

/-- The method `Field` of `RankFeaturesFieldParams`. -/
def Field {E : Type} (p : RankFeaturesFieldParams) : RankFeaturesField × Option (Error E) :=
  p.RankFeatures

end RankFeaturesFieldParams

/-- The constructor `NewRankFeaturesField`. -/
def NewRankFeaturesField {E : Type} (params : RankFeaturesFieldParams) :
    RankFeaturesField × Option (Error E) :=
  params.RankFeatures

namespace RankFeaturesField

/-- The method `UnmarshalJSON` of `*RankFeaturesField`: the receiver afterwards and the
error.  The assignment `*f = *n` comes before the error of the build is looked at. -/
def UnmarshalJSON {E : Type} (f : RankFeaturesField) (data : WireData) :
    RankFeaturesField × Option (Error E) :=
  match unmarshalRankFeaturesFieldParams data with
  | .error err => (f, some err)
  | .ok p =>
    match p.RankFeatures with
    | (n, err) => (n, err)

/-- The method `UnmarshalBSON` of `*RankFeaturesField`. -/
def UnmarshalBSON {E : Type} (f : RankFeaturesField) (data : WireData) :
    RankFeaturesField × Option (Error E) :=
  f.UnmarshalJSON data

end RankFeaturesField

end picker


/-! ## A concrete instance of the parameters -/

/-- A small `StringNumberOrTime`: absent, a string or an integral number. -/
inductive SampleSNT where
  | null
  | str (s : String)
  | num (n : Int)
  deriving DecidableEq, Repr

/-- Raw setter input for the concrete instance. -/
inductive SampleRaw where
  | nil
  | snt (v : SampleSNT)
  | str (s : String)
  | int (n : Int)
  | unsupported
  deriving DecidableEq, Repr

/-- Coercion of the concrete instance: `nil` gives the absent value, an already typed value
passes through, strings and integers are retained, anything else is refused. -/
def sampleSet (_v : SampleSNT) : SampleRaw → Except String SampleSNT
  | .nil => .ok .null
  | .snt v => .ok v
  | .str s => .ok (.str s)
  | .int n => .ok (.num n)
  | .unsupported => .error "unsupported type"

/-- The predicate `IsNilOrZero` of the concrete instance. -/
def sampleIsNilOrZero : SampleSNT → Bool
  | .null => true
  | .str s => s.isEmpty
  | .num n => n == 0

/-- A concrete instance of `Deps`, used to run the embedding on concrete inputs: numbers are
integral, the time-zone mixin holds a string and the boost mixin an optional number. -/
def sampleDeps : search.Deps where
  Raw := SampleRaw
  SNT := SampleSNT
  DynErr := String
  Number := Option Int
  Float64 := Int
  TimeZoneParam := String
  BoostParam := Option Int
  box := SampleRaw.snt
  newSNT := fun _ => SampleSNT.null
  set := sampleSet
  isNilOrZero := sampleIsNilOrZero
  numberFloat := id
  zeroTimeZone := ""
  setTimeZone := fun _ v => v
  zeroBoost := none
  setBoost := fun _ b => some b
  NewQueryError := fun err kind => search.Error.QueryError "" err kind

/-- The `Range` params value of the concrete instance with the four given bounds and nothing
else set. -/
def sampleRange (gt gte lt lte : SampleSNT) : search.Range sampleDeps :=
  { Field := "", GreaterThan := gt, GreaterThanOrEqualTo := gte, LessThan := lt,
    LessThanOrEqualTo := lte, Format := "", TimeZone := "", Boost := none }

/-- A range query of the concrete instance that holds one rule, under `price`. -/
def samplePriceQuery : search.RangeQuery sampleDeps :=
  ⟨some ⟨[("price", some (search.RangeRule.zero sampleDeps))]⟩⟩

/-- A rewrite vocabulary for concrete runs: the two default strategies by their wire names,
and exactly these two are valid. -/
def sampleVocab : search.RewriteVocab where
  RewriteConstantScore := "constant_score"
  RewriteTopTermsBlendedFreqsN := "top_terms_blended_freqs_N"
  IsValid := fun v => v == "constant_score" || v == "top_terms_blended_freqs_N"

/-- Mixin types for concrete runs of `MatchBooleanPrefix`: the other mixins hold nothing. -/
def sampleMixins : search.MixinTypes := ⟨Unit, Unit, Unit, Unit, Unit⟩

/-- The zero value `MatchBooleanPrefix{}` of the concrete instance. -/
def sampleMatchBooleanPrefix : search.MatchBooleanPrefix sampleMixins :=
  { Query := "", minimumShouldMatchParam := (), operatorParam := (), analyzerParam := (),
    fuzzinessParam := search.FuzzinessParam.zero, prefixLengthParam := (),
    fuzzyTranspositionsParam := () }

/-- A rule of the concrete instance with `gt = 1` and `gte = 2` stored and no upper bound. -/
def sampleBothLowerBounds : search.RangeRule sampleDeps :=
  { search.RangeRule.zero sampleDeps with
    GreaterThanValue := some (SampleSNT.num 1)
    GreaterThanOrEqualToValue := some (SampleSNT.num 2) }

/-- A rule of the concrete instance with all four bounds stored: `gt = 1`, `gte = 2`,
`lt = 8` and `lte = 9`. -/
def sampleAllBounds : search.RangeRule sampleDeps :=
  { search.RangeRule.zero sampleDeps with
    GreaterThanValue := some (SampleSNT.num 1)
    GreaterThanOrEqualToValue := some (SampleSNT.num 2)
    LessThanValue := some (SampleSNT.num 8)
    LessThanOrEqualToValue := some (SampleSNT.num 9) }

/-- Number coercion of the concrete instance: an absent value gives a number without a
value, integers are retained, anything else is not numeric. -/
def sampleNewNumber : SampleRaw → Except String (Option Int)
  | .nil => .ok none
  | .snt .null => .ok none
  | .snt (.num n) => .ok (some n)
  | .int n => .ok (some n)
  | _ => .error "not numeric"

/-- A concrete instance of `NumberDeps`: numbers are integral. -/
def sampleNumberDeps : picker.NumberDeps where
  Raw := SampleRaw
  Number := Option Int
  DynErr := String
  Float64 := Int
  NewNumber := sampleNewNumber
  numberFloat64 := id

/-- A scaling-factor mixin of the concrete instance that holds 10. -/
def sampleScalingFactor : picker.scalingFactorParam sampleNumberDeps := ⟨(10 : Int)⟩

/-- Types for concrete runs of the regexp clause: the embedded mixins hold nothing and a
byte string is a list of numbers. -/
def sampleRegexpTypes : picker.RegexpTypes := ⟨Unit, Unit, (), (), List Nat⟩

/-- The methods of a type that embeds `FuzzinessParam` and declares
`SetFuzzyRewrite(v Rewrite)` itself, without a result: the declared method hides the
promoted one, so the type implements `WithFuzziness`. -/
def implementingMethods (E : Type) (R : search.RewriteVocab) :
    Methods search.FuzzinessParam E :=
  [ ("Fuzziness", .getString search.FuzzinessParam.Fuzziness),
    ("SetFuzziness", .setString search.FuzzinessParam.SetFuzziness),
    ("FuzzyRewrite", .getRewrite (search.FuzzinessParam.FuzzyRewrite R)),
    ("DefaultFuzzyRewrite", .getRewrite (search.FuzzinessParam.DefaultFuzzyRewrite R)),
    ("SetFuzzyRewrite", .setRewrite fun f v =>
      (search.FuzzinessParam.SetFuzzyRewrite R f v : search.FuzzinessParam × Option (search.Error E)).1) ]

/-- The method table that a value with `implementingMethods` shows through
`WithFuzziness`. -/
def implementingTable (E : Type) (R : search.RewriteVocab) :
    search.WithFuzziness search.FuzzinessParam :=
  ⟨search.FuzzinessParam.Fuzziness, search.FuzzinessParam.SetFuzziness,
    search.FuzzinessParam.FuzzyRewrite R,
    fun f v =>
      (search.FuzzinessParam.SetFuzzyRewrite R f v : search.FuzzinessParam × Option (search.Error E)).1,
    search.FuzzinessParam.DefaultFuzzyRewrite R⟩

/-- The `FieldType` constants for concrete runs, by their wire names. -/
def sampleFieldTypes : picker.FieldTypes := ⟨"rank_feature", "rank_features"⟩


/-- Boolean coercion of the concrete instance: a JSON bool is retained, `null` gives a
`dynamic.Bool` without a value, anything else is not a boolean. -/
def sampleNewBool : Json → Except String (Option Bool)
  | .bool b => .ok (some b)
  | .null => .ok none
  | _ => .error "not a boolean"

/-- A concrete instance of `BoolDeps`: a wire value is a JSON value. -/
def sampleBoolDeps : picker.BoolDeps where
  JSON := Json
  DynBool := Option Bool
  DynErr := String
  NewBool := sampleNewBool
  boolValue := id


/-- A map of two params values of the concrete instance, under `price` and `age`. -/
def sampleRanges : GoMap (search.Range sampleDeps) :=
  ⟨[("price", sampleRange .null .null (.num 7) .null),
    ("age", sampleRange .null .null .null (.num 9))]⟩

/-- Mixin types for concrete runs of `MatchPhrase`: the mixins hold nothing. -/
def samplePhraseMixins : search.PhraseMixinTypes := ⟨Unit, Unit⟩

/-- The wire text `{"positive_score_impact": 5}`, whose value is not a boolean. -/
def sampleNotBooleanData : WireData :=
  WireData.text (Json.object [("positive_score_impact", Json.number "5")])


/-! ## Facts about Go maps -/

theorem GoMap.getList_setList_same {V : Type} (m : List (String × V)) (key : String) (val : V) :
    GoMap.getList (GoMap.setList m key val) key = some val := by
  induction m with
  | nil => simp [GoMap.setList, GoMap.getList]
  | cons e m ih =>
    obtain ⟨k, v⟩ := e
    by_cases h : k = key
    · simp [GoMap.setList, GoMap.getList, h]
    · simp [GoMap.setList, GoMap.getList, h, ih]

theorem GoMap.getList_setList_other {V : Type} (m : List (String × V)) (key k' : String) (val : V)
    (hk : k' ≠ key) :
    GoMap.getList (GoMap.setList m key val) k' = GoMap.getList m k' := by
  induction m with
  | nil =>
    have : key ≠ k' := fun h => hk h.symm
    simp [GoMap.setList, GoMap.getList, this]
  | cons e m ih =>
    obtain ⟨k, v⟩ := e
    by_cases h : k = key
    · have : key ≠ k' := fun h' => hk h'.symm
      subst h
      simp [GoMap.setList, GoMap.getList, this]
    · by_cases h2 : k = k'
      · subst h2
        simp [GoMap.setList, GoMap.getList, h]
      · simp [GoMap.setList, GoMap.getList, h, h2, ih]

theorem GoMap.get_set_same {V : Type} (m : GoMap V) (key : String) (val : V) :
    (m.set key val).get key = some val :=
  GoMap.getList_setList_same m.entries key val

theorem GoMap.get_set_other {V : Type} (m : GoMap V) (key k' : String) (val : V)
    (hk : k' ≠ key) : (m.set key val).get k' = m.get k' :=
  GoMap.getList_setList_other m.entries key k' val hk

/-! ## Range clauses: the bound setters and `Range.Range` -/

namespace search

variable {D : Deps}

theorem RangeRule.SetGreaterThan_gte (q : RangeRule D) (v : D.Raw) :
    (q.SetGreaterThan v).1.GreaterThanOrEqualToValue = q.GreaterThanOrEqualToValue := by
  unfold RangeRule.SetGreaterThan
  cases D.set (D.newSNT none) v with
  | error e => rfl
  | ok a => cases h : D.isNilOrZero a <;> simp [h]

theorem RangeRule.SetLessThan_gte (q : RangeRule D) (v : D.Raw) :
    (q.SetLessThan v).1.GreaterThanOrEqualToValue = q.GreaterThanOrEqualToValue := by
  unfold RangeRule.SetLessThan
  cases D.set (D.newSNT none) v with
  | error e => rfl
  | ok a => cases h : D.isNilOrZero a <;> simp [h]

theorem RangeRule.SetLessThanOrEqualTo_gte (q : RangeRule D) (v : D.Raw) :
    (q.SetLessThanOrEqualTo v).1.GreaterThanOrEqualToValue = q.GreaterThanOrEqualToValue := by
  unfold RangeRule.SetLessThanOrEqualTo
  cases D.set (D.newSNT none) v with
  | error e => rfl
  | ok a => cases h : D.isNilOrZero a <;> simp [h]

/-- Whatever the params value holds, `Range.Range` hands back a rule whose
`GreaterThanOrEqualToValue` is nil: no call of it writes that field. -/
theorem Range.Range_gte_value_none (r : search.Range D) :
    r.Range.1.GreaterThanOrEqualToValue = none := by
  have h0 : (RangeRule.zero D).GreaterThanOrEqualToValue = none := rfl
  unfold Range.Range
  simp only []
  generalize RangeRule.zero D = q0 at h0 ⊢
  have h1 := RangeRule.SetGreaterThan_gte q0 (D.box r.GreaterThan)
  rcases hq1 : q0.SetGreaterThan (D.box r.GreaterThan) with ⟨q1, _ | e1⟩
  swap
  · simp [hq1] at h1 ⊢; rw [h1, h0]
  have h2 := RangeRule.SetGreaterThan_gte q1 (D.box r.GreaterThanOrEqualTo)
  rcases hq2 : q1.SetGreaterThan (D.box r.GreaterThanOrEqualTo) with ⟨q2, _ | e2⟩
  swap
  · simp [hq1, hq2] at h1 h2 ⊢; rw [h2, h1, h0]
  have h3 := RangeRule.SetLessThan_gte q2 (D.box r.LessThan)
  rcases hq3 : q2.SetLessThan (D.box r.LessThan) with ⟨q3, _ | e3⟩
  swap
  · simp [hq1, hq2, hq3] at h1 h2 h3 ⊢; rw [h3, h2, h1, h0]
  have h4 := RangeRule.SetLessThanOrEqualTo_gte q3 (D.box r.LessThanOrEqualTo)
  rcases hq4 : q3.SetLessThanOrEqualTo (D.box r.LessThanOrEqualTo) with ⟨q4, _ | e4⟩
  swap
  · simp [hq1, hq2, hq3, hq4] at h1 h2 h3 h4 ⊢; rw [h4, h3, h2, h1, h0]
  simp [hq1, hq2, hq3, hq4] at h1 h2 h3 h4 ⊢
  have : ∀ q : RangeRule D,
      (match D.numberFloat r.Boost with
        | some b => q.SetBoost b
        | none => q).GreaterThanOrEqualToValue = q.GreaterThanOrEqualToValue := by
    intro q; cases D.numberFloat r.Boost <;> rfl
  simp only [RangeRule.SetTimeZone, RangeRule.SetFormat] at this ⊢
  rw [this]
  simp [h4, h3, h2, h1, h0]

/-- When the four bounds coerce, `Range.Range` succeeds; the rule holds the coerced
`GreaterThanOrEqualTo` under `GreaterThanValue`, nothing under
`GreaterThanOrEqualToValue`, and the two upper bounds where they belong. -/
theorem Range.Range_of_coerced (r : search.Range D) (a b c d : D.SNT)
    (ha : D.set (D.newSNT none) (D.box r.GreaterThan) = .ok a)
    (hb : D.set (D.newSNT none) (D.box r.GreaterThanOrEqualTo) = .ok b)
    (hc : D.set (D.newSNT none) (D.box r.LessThan) = .ok c)
    (hd : D.set (D.newSNT none) (D.box r.LessThanOrEqualTo) = .ok d) :
    r.Range.2 = none ∧
    r.Range.1.GreaterThanValue = (if D.isNilOrZero b then none else some b) ∧
    r.Range.1.GreaterThanOrEqualToValue = none ∧
    r.Range.1.LessThanValue = (if D.isNilOrZero c then none else some c) ∧
    r.Range.1.LessThanOrEqualToValue = (if D.isNilOrZero d then none else some d) := by
  unfold Range.Range
  simp only [RangeRule.SetGreaterThan, RangeRule.SetLessThan, RangeRule.SetLessThanOrEqualTo,
    RangeRule.SetFormat, RangeRule.SetTimeZone, RangeRule.SetBoost, RangeRule.zero, ha, hb, hc, hd]
  cases D.isNilOrZero a <;> cases D.isNilOrZero b <;> cases D.isNilOrZero c <;>
    cases D.isNilOrZero d <;> cases D.numberFloat r.Boost <;> simp

/-- C1 (the code departs from the claim).  `Range.Range` never stores the
greater-than-or-equal bound under `GreaterThanOrEqualToValue`: for every params value the
returned rule has that field nil.  At the params value whose only bound is
`GreaterThanOrEqualTo = 10` (non-zero, and all four bounds coerce) the build succeeds, the
coerced 10 is found under `GreaterThanValue` and `GreaterThanOrEqualToValue` is nil. -/
theorem Range_Range_gte_not_stored :
    (∀ (D : Deps) (r : search.Range D), r.Range.1.GreaterThanOrEqualToValue = none) ∧
    sampleDeps.isNilOrZero (SampleSNT.num 10) = false ∧
    sampleDeps.set (sampleDeps.newSNT none) (sampleDeps.box (SampleSNT.num 10))
      = .ok (SampleSNT.num 10) ∧
    sampleDeps.set (sampleDeps.newSNT none) (sampleDeps.box SampleSNT.null)
      = .ok SampleSNT.null ∧
    (sampleRange .null (.num 10) .null .null).Range.2 = none ∧
    (sampleRange .null (.num 10) .null .null).Range.1.GreaterThanOrEqualToValue = none ∧
    (sampleRange .null (.num 10) .null .null).Range.1.GreaterThanValue
      = some (SampleSNT.num 10) :=
  ⟨fun _ r => Range.Range_gte_value_none r, rfl, rfl, rfl, rfl, rfl, rfl⟩

/-- C2 (the code departs from the claim).  At the params value whose only bound is
`GreaterThan = 5` (non-zero, and all four bounds coerce, `GreaterThanOrEqualTo` being
absent) the build succeeds and the getter `GreaterThan` of the returned rule is nil: the
second `SetGreaterThan` call, made with the absent `GreaterThanOrEqualTo`, has cleared it. -/
theorem Range_Range_gt_cleared :
    sampleDeps.isNilOrZero (SampleSNT.num 5) = false ∧
    sampleDeps.set (sampleDeps.newSNT none) (sampleDeps.box (SampleSNT.num 5))
      = .ok (SampleSNT.num 5) ∧
    sampleDeps.set (sampleDeps.newSNT none) (sampleDeps.box SampleSNT.null)
      = .ok SampleSNT.null ∧
    (sampleRange (.num 5) .null .null .null).Range.2 = none ∧
    (sampleRange (.num 5) .null .null .null).Range.1.GreaterThan = none :=
  ⟨rfl, rfl, rfl, rfl, rfl⟩

/-! ## Range clauses: `AddRange` and `AssignRange` -/

/-- C3.  When `f` is already a key of `q.RangeValue`, `q.AddRange(f, v)` returns
`QueryError{Field: f, Err: ErrFieldExists, Type: TypeRange}` and `q` is left as it was. -/
theorem AddRange_existing_field (q : RangeQuery D) (m : GoMap (Option (RangeRule D)))
    (f : String) (v : search.Range D) (rule : Option (RangeRule D))
    (hq : q.RangeValue = some m) (hf : m.get f = some rule) :
    q.AddRange f v
      = (q, some (Error.QueryError f Error.ErrFieldExists Kind.TypeRange)) := by
  obtain ⟨rv⟩ := q
  simp only at hq
  subst hq
  simp [RangeQuery.AddRange, hf]

/-- C4.  For a non-empty field name `f` and a params value `v` whose build succeeds with
rule `r`, `q.AssignRange(f, v)` returns nil, afterwards `q.RangeValue[f]` is `r`, and the
entry under every other key is what it was. -/
theorem AssignRange_replaces_entry (q : RangeQuery D) (f : String) (v : search.Range D)
    (r : RangeRule D) (hf : f ≠ "") (hv : v.Range = (r, none)) :
    (q.AssignRange f v).2 = none ∧
    (q.AssignRange f v).1.index f = some (some r) ∧
    ∀ k : String, k ≠ f → (q.AssignRange f v).1.index k = q.index k := by
  obtain ⟨rv⟩ := q
  simp only [RangeQuery.AssignRange, hf, if_false, hv, RangeQuery.index]
  refine ⟨trivial, GoMap.get_set_same _ _ _, ?_⟩
  intro k hk
  rw [GoMap.get_set_other _ _ _ _ hk]
  cases rv <;> rfl

/-- C3 at a query that already holds a rule under `price`. -/
theorem AddRange_existing_field_witness :
    (samplePriceQuery.RangeValue
        = some ⟨[("price", some (RangeRule.zero sampleDeps))]⟩ ∧
      GoMap.get (⟨[("price", some (RangeRule.zero sampleDeps))]⟩ :
        GoMap (Option (RangeRule sampleDeps))) "price" = some (some (RangeRule.zero sampleDeps))) ∧
    samplePriceQuery.AddRange "price" (sampleRange .null .null (.num 7) .null)
      = (samplePriceQuery,
          some (Error.QueryError "price" Error.ErrFieldExists Kind.TypeRange)) :=
  ⟨⟨rfl, rfl⟩,
    AddRange_existing_field samplePriceQuery ⟨[("price", some (RangeRule.zero sampleDeps))]⟩
      "price" (sampleRange .null .null (.num 7) .null) (some (RangeRule.zero sampleDeps)) rfl rfl⟩

/-- C4 at a query that already holds a rule under `price`, which is replaced. -/
theorem AssignRange_replaces_entry_witness :
    ("price" ≠ "" ∧
      (sampleRange .null .null (.num 7) .null).Range
        = ((sampleRange .null .null (.num 7) .null).Range.1, none)) ∧
    ((samplePriceQuery.AssignRange "price" (sampleRange .null .null (.num 7) .null)).2 = none ∧
      (samplePriceQuery.AssignRange "price" (sampleRange .null .null (.num 7) .null)).1.index
          "price" = some (some (sampleRange .null .null (.num 7) .null).Range.1) ∧
      ∀ k : String, k ≠ "price" →
        (samplePriceQuery.AssignRange "price" (sampleRange .null .null (.num 7) .null)).1.index k
          = samplePriceQuery.index k) :=
  ⟨⟨by decide, rfl⟩,
    AssignRange_replaces_entry samplePriceQuery "price" (sampleRange .null .null (.num 7) .null)
      (sampleRange .null .null (.num 7) .null).Range.1 (by decide) rfl⟩

/-! ## The fuzziness mixin -/

/-- C5.  With `FuzzyRewriteValue` empty, `FuzzyRewrite()` is `RewriteConstantScore` when
`Fuzziness()` is `"0"` and `RewriteTopTermsBlendedFreqsN` for every other value of
`Fuzziness()`. -/
theorem FuzzyRewrite_derived_default (R : RewriteVocab) (f : FuzzinessParam)
    (h : f.FuzzyRewriteValue = "") :
    (f.Fuzziness = "0" → f.FuzzyRewrite R = R.RewriteConstantScore) ∧
    (f.Fuzziness ≠ "0" → f.FuzzyRewrite R = R.RewriteTopTermsBlendedFreqsN) := by
  constructor
  · intro h0
    simp [FuzzinessParam.FuzzyRewrite, FuzzinessParam.DefaultFuzzyRewrite, DefaultFuzziness, h, h0]
  · intro h0
    simp [FuzzinessParam.FuzzyRewrite, FuzzinessParam.DefaultFuzzyRewrite, DefaultFuzziness, h, h0]

/-- C5 at the mixin with fuzziness `AUTO` and no rewrite set. -/
theorem FuzzyRewrite_derived_default_witness :
    (⟨"AUTO", ""⟩ : FuzzinessParam).FuzzyRewriteValue = "" ∧
    (((⟨"AUTO", ""⟩ : FuzzinessParam).Fuzziness = "0" →
        (⟨"AUTO", ""⟩ : FuzzinessParam).FuzzyRewrite sampleVocab
          = sampleVocab.RewriteConstantScore) ∧
      ((⟨"AUTO", ""⟩ : FuzzinessParam).Fuzziness ≠ "0" →
        (⟨"AUTO", ""⟩ : FuzzinessParam).FuzzyRewrite sampleVocab
          = sampleVocab.RewriteTopTermsBlendedFreqsN)) :=
  ⟨rfl, FuzzyRewrite_derived_default sampleVocab ⟨"AUTO", ""⟩ rfl⟩

/-- C6 (the code departs from the claim).  The getter `Fuzziness` of the zero value
`FuzzinessParam{}` returns the empty string, which is not `DefaultFuzziness` (`"0"`); as a
consequence the derived default rewrite of a never-set mixin is the one for a non-zero
fuzziness. -/
theorem Fuzziness_zero_value_is_empty :
    FuzzinessParam.zero.Fuzziness = "" ∧ FuzzinessParam.zero.Fuzziness ≠ DefaultFuzziness ∧
    DefaultFuzziness = "0" ∧
    ∀ R : RewriteVocab,
      FuzzinessParam.zero.DefaultFuzzyRewrite R = R.RewriteTopTermsBlendedFreqsN := by
  refine ⟨rfl, ?_, rfl, fun R => ?_⟩
  · decide
  · simp [FuzzinessParam.DefaultFuzzyRewrite, FuzzinessParam.Fuzziness, FuzzinessParam.zero,
      DefaultFuzziness]

/-- The selector `SetFuzzyRewrite` of `*MatchBooleanPrefix` is either ambiguous or the
method promoted from `FuzzinessParam`, whose signature has an `error` result. -/
theorem MatchBooleanPrefix.lookup_SetFuzzyRewrite {X : MixinTypes} (E : Type) (R : RewriteVocab)
    (others : Methods (MatchBooleanPrefix X) E) :
    lookupMethod (MatchBooleanPrefix.methods E R others) "SetFuzzyRewrite" = none ∨
    ∃ f, lookupMethod (MatchBooleanPrefix.methods E R others) "SetFuzzyRewrite"
      = some (Impl.setRewriteErr f) := by
  unfold lookupMethod MatchBooleanPrefix.methods FuzzinessParam.methods
  simp only [List.map, List.filter_append]
  rw [List.filter_cons_of_neg (by simp), List.filter_cons_of_neg (by simp),
    List.filter_cons_of_neg (by simp), List.filter_cons_of_neg (by simp),
    List.filter_cons_of_pos (by simp), List.filter_nil]
  cases List.filter (fun m => decide (m.1 = "SetFuzzyRewrite")) others with
  | nil => exact Or.inr ⟨_, rfl⟩
  | cons o os => exact Or.inl rfl

/-- The type assertion `x.(WithFuzziness)` fails for every `*MatchBooleanPrefix`. -/
theorem MatchBooleanPrefix.asWithFuzziness_none {X : MixinTypes} (E : Type) (R : RewriteVocab)
    (others : Methods (MatchBooleanPrefix X) E) :
    asWithFuzziness (MatchBooleanPrefix.methods E R others) = none := by
  unfold asWithFuzziness
  split
  · rename_i h1 h2 h3 h4 h5
    rcases MatchBooleanPrefix.lookup_SetFuzzyRewrite E R others with h | ⟨f, h⟩
    · rw [h] at h4; cases h4
    · rw [h] at h4; cases h4
  · rfl

/-- C10 (the code departs from the claim).  For every `*MatchBooleanPrefix` (whatever the
other embedded mixins contribute), every string `v` and every map `data`,
`marshalFuzzinessParam` after `SetFuzziness(v)` hands `data` back as it was: the type
assertion to `WithFuzziness` fails because the promoted `SetFuzzyRewrite` returns an
`error`.  With `v = "AUTO"` and an empty map the result has no key `fuzziness`, although
`Fuzziness()` is `"AUTO"`. -/
theorem marshalFuzzinessParam_MatchBooleanPrefix_unchanged :
    (∀ (X : MixinTypes) (E α : Type) (R : RewriteVocab)
        (others : Methods (MatchBooleanPrefix X) E) (data : GoMap (Any α))
        (c : MatchBooleanPrefix X) (v : String),
        marshalFuzzinessParam data
          (⟨c.SetFuzziness v, MatchBooleanPrefix.methods E R others⟩ :
            Dyn (MatchBooleanPrefix X) E) = (data, none)) ∧
    (sampleMatchBooleanPrefix.SetFuzziness "AUTO").Fuzziness = "AUTO" ∧
    "AUTO" ≠ DefaultFuzziness ∧
    (marshalFuzzinessParam (GoMap.empty : GoMap (Any Unit))
        (⟨sampleMatchBooleanPrefix.SetFuzziness "AUTO",
          MatchBooleanPrefix.methods Unit sampleVocab []⟩ :
            Dyn (MatchBooleanPrefix sampleMixins) Unit)).1.get paramFuzziness = none := by
  refine ⟨?_, by decide, by decide, ?_⟩
  · intro X E α R others data c v
    simp [marshalFuzzinessParam, MatchBooleanPrefix.asWithFuzziness_none]
  · simp [marshalFuzzinessParam, MatchBooleanPrefix.asWithFuzziness_none, GoMap.get, GoMap.empty,
      GoMap.getList]

end search

/-! ## The norms mixin -/

namespace mapping

/-- C7, the claim as stated fails: from the zero value, `SetNorms(false)` followed by
`SetNorms(true)` leaves `NormsValue` a non-nil pointer to `true`. -/
theorem SetNorms_true_after_false_stored :
    ((NormsParam.zero.SetNorms false).SetNorms true).NormsValue = some true ∧
    ((NormsParam.zero.SetNorms false).SetNorms true).NormsValue ≠ none := by
  decide

/-- C7, amended.  After `SetNorms(true)` the getter `Norms()` reports `true`, and
`NormsValue` is nil exactly when it was nil before the call: a never-set `NormsParam` stays
nil, a stored value stays stored. -/
theorem SetNorms_true_keeps_nil (n : NormsParam) :
    (n.SetNorms true).Norms = true ∧
    ((n.SetNorms true).NormsValue = none ↔ n.NormsValue = none) := by
  rcases n with ⟨_ | _ | _⟩ <;> decide

end mapping

/-! ## The format mixin -/

namespace search

/-- C8, the claim as stated fails: from the zero value, `SetFormat("yyyy-MM-dd")` followed
by `SetFormat("strict_date_optional_time||epoch_millis")` leaves the default string stored
in `FormatValue`, which is not empty. -/
theorem SetFormat_default_after_other_stored :
    ((FormatParam.zero.SetFormat "yyyy-MM-dd").SetFormat
        "strict_date_optional_time||epoch_millis").FormatValue
      = "strict_date_optional_time||epoch_millis" ∧
    ((FormatParam.zero.SetFormat "yyyy-MM-dd").SetFormat
        "strict_date_optional_time||epoch_millis").FormatValue ≠ "" := by
  decide

/-- C8, amended.  After `SetFormat("strict_date_optional_time||epoch_millis")` the getter
`Format()` reports that default, and `FormatValue` is empty exactly when it was empty
before the call: a never-set `FormatParam` stays empty, a stored value stays stored. -/
theorem SetFormat_default_keeps_empty (f : FormatParam) :
    (f.SetFormat "strict_date_optional_time||epoch_millis").Format
      = "strict_date_optional_time||epoch_millis" ∧
    ((f.SetFormat "strict_date_optional_time||epoch_millis").FormatValue = "" ↔
      f.FormatValue = "") := by
  obtain ⟨v⟩ := f
  by_cases h1 : v = ""
  · subst h1
    decide
  · by_cases h2 : v = "strict_date_optional_time||epoch_millis"
    · subst h2
      decide
    · have h3 : ¬ ("strict_date_optional_time||epoch_millis" = v) := fun h => h2 h.symm
      simp [FormatParam.SetFormat, FormatParam.Format, h1, h2, h3]

end search

/-! ## The transpositions mixin -/

namespace picker

/-- The hook on a source whose type assertion succeeds with method table `b`. -/
theorem marshalTranspositionsParam_of_assert {σ E α : Type} (data : GoMap (Any α))
    (source : Dyn σ E) (b : WithTranspositions σ)
    (hb : asWithTranspositions source.methods = some b) :
    marshalTranspositionsParam data source
      = if b.Transpositions source.value then (data, none)
        else (data.set "transpositions" (Any.bool false), none) := by
  unfold marshalTranspositionsParam
  rw [hb]
  cases hT : b.Transpositions source.value <;> simp [hT]

/-- C9.  For a source that implements `WithTranspositions`, `marshalTranspositionsParam`
returns no error; when `Transpositions()` is false the result is `data` with
`"transpositions"` set to `false` (so the key is there and every other key is as before),
and when it is true the result is `data` itself.  A never-set `*transpositionsParam` and
one after `SetTranspositions(true)` get `data` back, and one after
`SetTranspositions(false)` gets `"transpositions": false`, whatever was set before. -/
theorem marshalTranspositionsParam_spec {E α : Type} (data : GoMap (Any α)) :
    (∀ (σ : Type) (source : Dyn σ E) (b : WithTranspositions σ),
      asWithTranspositions source.methods = some b →
        (marshalTranspositionsParam data source).2 = none ∧
        (b.Transpositions source.value = false →
          (marshalTranspositionsParam data source).1
              = data.set "transpositions" (Any.bool false) ∧
          (marshalTranspositionsParam data source).1.get "transpositions"
              = some (Any.bool false) ∧
          ∀ k : String, k ≠ "transpositions" →
            (marshalTranspositionsParam data source).1.get k = data.get k) ∧
        (b.Transpositions source.value = true →
          (marshalTranspositionsParam data source).1 = data)) ∧
    marshalTranspositionsParam data (transpositionsParam.zero.toDyn E) = (data, none) ∧
    (∀ t : transpositionsParam,
      marshalTranspositionsParam data ((t.SetTranspositions true).toDyn E) = (data, none)) ∧
    (∀ t : transpositionsParam,
      (marshalTranspositionsParam data ((t.SetTranspositions false).toDyn E)).2 = none ∧
      (marshalTranspositionsParam data ((t.SetTranspositions false).toDyn E)).1.get
          "transpositions" = some (Any.bool false)) := by
  refine ⟨?_, rfl, fun t => rfl, fun t => ⟨rfl, ?_⟩⟩
  · intro σ source b hb
    rw [marshalTranspositionsParam_of_assert data source b hb]
    cases hT : b.Transpositions source.value
    · refine ⟨rfl, fun _ => ⟨rfl, GoMap.get_set_same _ _ _, fun k hk => ?_⟩, fun h => ?_⟩
      · exact GoMap.get_set_other _ _ _ _ hk
      · cases h
    · refine ⟨rfl, fun h => ?_, fun _ => rfl⟩
      cases h
  · exact GoMap.get_set_same _ _ _

/-- C9 at a `*transpositionsParam` after `SetTranspositions(false)` and an empty map. -/
theorem marshalTranspositionsParam_spec_witness :
    asWithTranspositions ((transpositionsParam.zero.SetTranspositions false).toDyn Unit).methods
      = some ⟨transpositionsParam.Transpositions, transpositionsParam.SetTranspositions⟩ ∧
    (marshalTranspositionsParam (GoMap.empty : GoMap (Any Unit))
        ((transpositionsParam.zero.SetTranspositions false).toDyn Unit)).2 = none ∧
    (marshalTranspositionsParam (GoMap.empty : GoMap (Any Unit))
        ((transpositionsParam.zero.SetTranspositions false).toDyn Unit)).1.get "transpositions"
      = some (Any.bool false) :=
  ⟨rfl,
    ((marshalTranspositionsParam_spec (GoMap.empty : GoMap (Any Unit))).1 transpositionsParam
      ((transpositionsParam.zero.SetTranspositions false).toDyn Unit)
      ⟨transpositionsParam.Transpositions, transpositionsParam.SetTranspositions⟩ rfl).1,
    (((marshalTranspositionsParam_spec (GoMap.empty : GoMap (Any Unit))).1 transpositionsParam
      ((transpositionsParam.zero.SetTranspositions false).toDyn Unit)
      ⟨transpositionsParam.Transpositions, transpositionsParam.SetTranspositions⟩ rfl).2.1
        rfl).2.1⟩

end picker

/-! ## The scaling-factor mixin -/

namespace picker

/-- C11, the claim as stated fails: in the concrete instance the string `abc` is not
numeric, and `SetScalingFactor` hands back the error of `dynamic.NewNumber`, which is not
`ErrScalingFactorRequired`. -/
theorem SetScalingFactor_non_numeric_returns_coercion_error :
    sampleNumberDeps.NewNumber (SampleRaw.str "abc") = .error "not numeric" ∧
    (sampleScalingFactor.SetScalingFactor (SampleRaw.str "abc")).2
      = some (Error.dynamic "not numeric") ∧
    (sampleScalingFactor.SetScalingFactor (SampleRaw.str "abc")).2
      ≠ some Error.ErrScalingFactorRequired := by
  refine ⟨rfl, rfl, ?_⟩
  intro h
  cases h

/-- C11, amended.  When `dynamic.NewNumber(v)` fails with `err`, `SetScalingFactor(v)`
returns that error and leaves the mixin as it was; `ErrScalingFactorRequired` is what it
returns when `v` coerces to a number that has no `float64` value. -/
theorem SetScalingFactor_error_cases (N : NumberDeps) (sf : scalingFactorParam N) (v : N.Raw) :
    (∀ err, N.NewNumber v = .error err →
      sf.SetScalingFactor v = (sf, some (Error.dynamic err))) ∧
    (∀ n, N.NewNumber v = .ok n → N.numberFloat64 n = none →
      sf.SetScalingFactor v = (sf, some Error.ErrScalingFactorRequired)) := by
  constructor
  · intro err h
    simp [scalingFactorParam.SetScalingFactor, h]
  · intro n h hn
    simp [scalingFactorParam.SetScalingFactor, h, hn]

/-- C11, amended, at the non-numeric string `abc` of the concrete instance. -/
theorem SetScalingFactor_error_cases_witness :
    sampleNumberDeps.NewNumber (SampleRaw.str "abc") = .error "not numeric" ∧
    sampleScalingFactor.SetScalingFactor (SampleRaw.str "abc")
      = (sampleScalingFactor, some (Error.dynamic "not numeric")) :=
  ⟨rfl, (SetScalingFactor_error_cases sampleNumberDeps sampleScalingFactor
    (SampleRaw.str "abc")).1 "not numeric" rfl⟩

/-- C12.  When `v` coerces to a number `n` with `n.Float64() = (x, true)`,
`SetScalingFactor(v)` returns nil and `ScalingFactor()` is `x` afterwards; whenever
`SetScalingFactor(v)` returns an error, `ScalingFactor()` is what it was before. -/
theorem SetScalingFactor_spec (N : NumberDeps) (sf : scalingFactorParam N) (v : N.Raw) :
    (∀ n x, N.NewNumber v = .ok n → N.numberFloat64 n = some x →
      (sf.SetScalingFactor v).2 = none ∧ (sf.SetScalingFactor v).1.ScalingFactor = x) ∧
    (∀ err, (sf.SetScalingFactor v).2 = some err →
      (sf.SetScalingFactor v).1.ScalingFactor = sf.ScalingFactor) := by
  constructor
  · intro n x h hx
    simp [scalingFactorParam.SetScalingFactor, scalingFactorParam.ScalingFactor, h, hx]
  · intro err
    unfold scalingFactorParam.SetScalingFactor
    cases h : N.NewNumber v with
    | error e => intro _; rfl
    | ok n =>
      cases hn : N.numberFloat64 n with
      | none => intro _; simp [hn]
      | some x => intro h'; simp [hn] at h'

/-- C12 at the raw integer 25 of the concrete instance, set on a mixin that holds 10. -/
theorem SetScalingFactor_spec_witness :
    (sampleNumberDeps.NewNumber (SampleRaw.int 25) = .ok (some 25) ∧
      sampleNumberDeps.numberFloat64 (some 25) = some (25 : Int)) ∧
    (sampleScalingFactor.SetScalingFactor (SampleRaw.int 25)).2 = none ∧
    (sampleScalingFactor.SetScalingFactor (SampleRaw.int 25)).1.ScalingFactor = (25 : Int) :=
  ⟨⟨rfl, rfl⟩, (SetScalingFactor_spec sampleNumberDeps sampleScalingFactor
    (SampleRaw.int 25)).1 (some 25) (25 : Int) rfl rfl⟩

end picker

/-! ## Range clauses: failing bounds and wire keys -/

namespace search

/-- The error that `Range()` returns is the coercion error of the first bound that fails,
in the order of the calls (`gt`, `gte`, `lt`, `lte`), and nil when no bound fails. -/
theorem Range_Range_returns_first_error (D : Deps) (r : search.Range D) :
    r.Range.2 =
      [D.set (D.newSNT none) (D.box r.GreaterThan),
        D.set (D.newSNT none) (D.box r.GreaterThanOrEqualTo),
        D.set (D.newSNT none) (D.box r.LessThan),
        D.set (D.newSNT none) (D.box r.LessThanOrEqualTo)].findSome? (fun res =>
          match res with
          | .error err => some (Error.dynamic err)
          | .ok _ => none) := by
  unfold Range.Range
  simp only [RangeRule.SetGreaterThan, RangeRule.SetLessThan, RangeRule.SetLessThanOrEqualTo,
    RangeRule.SetFormat, RangeRule.SetTimeZone, RangeRule.SetBoost, RangeRule.zero]
  cases h1 : D.set (D.newSNT none) (D.box r.GreaterThan) with
  | error e1 => simp [List.findSome?]
  | ok a =>
    by_cases ha : D.isNilOrZero a = true
    all_goals
      cases h2 : D.set (D.newSNT none) (D.box r.GreaterThanOrEqualTo) with
      | error e2 => simp [List.findSome?, ha]
      | ok b =>
        by_cases hb : D.isNilOrZero b = true
        all_goals
          cases h3 : D.set (D.newSNT none) (D.box r.LessThan) with
          | error e3 => simp [List.findSome?, ha, hb]
          | ok c =>
            by_cases hc : D.isNilOrZero c = true
            all_goals
              cases h4 : D.set (D.newSNT none) (D.box r.LessThanOrEqualTo) with
              | error e4 => simp [List.findSome?, ha, hb, hc]
              | ok d =>
                by_cases hd : D.isNilOrZero d = true
                all_goals simp [List.findSome?, ha, hb, hc, hd]

/-- When the coercion accepts every `StringNumberOrTime` that is handed to it as it is
(section 4.1 of the spec: an already typed value passes through), no bound of a params value
fails and `Range()` returns nil. -/
theorem Range_Range_no_error_of_passthrough (D : Deps)
    (hpass : ∀ v : D.SNT, ∃ a : D.SNT, D.set (D.newSNT none) (D.box v) = .ok a)
    (r : search.Range D) : r.Range.2 = none := by
  rw [Range_Range_returns_first_error]
  obtain ⟨a, ha⟩ := hpass r.GreaterThan
  obtain ⟨b, hb⟩ := hpass r.GreaterThanOrEqualTo
  obtain ⟨c, hc⟩ := hpass r.LessThan
  obtain ⟨d, hd⟩ := hpass r.LessThanOrEqualTo
  simp [ha, hb, hc, hd, List.findSome?]

/-- C14 (the code departs from the claim).  The tag of `GreaterThanOrEqualToValue` gives the
key `gte` for JSON and the key `gt` for bson, the key that `GreaterThanValue` has as well; a
rule with both lower bounds stored has them under `gt` and `gte` in JSON; by the tags both
get the bson key `gt`, and the bson encoder refuses the struct for its duplicated key `gt`
and encodes neither bound. -/
theorem RangeRule_bson_key_of_gte_is_gt :
    RangeRule.tags.map (fun t => (t.field, t.json, t.bson))
      = [("GreaterThanValue", "gt", "gt"), ("GreaterThanOrEqualToValue", "gte", "gt"),
          ("LessThanValue", "lt", "lt"), ("LessThanOrEqualToValue", "lte", "lte")] ∧
    ¬ (∀ t ∈ RangeRule.tags, t.bson = t.json) ∧
    ¬ (RangeRule.tags.map WireTag.bson).Nodup ∧
    (RangeRule.tags.map WireTag.json).Nodup ∧
    sampleBothLowerBounds.jsonBounds
      = [("gt", SampleSNT.num 1), ("gte", SampleSNT.num 2)] ∧
    sampleBothLowerBounds.wireBounds WireTag.bson
      = [("gt", SampleSNT.num 1), ("gt", SampleSNT.num 2)] ∧
    sampleBothLowerBounds.bsonBounds = .error "duplicated key gt" ∧
    (∀ (D : Deps) (r : RangeRule D), r.bsonBounds = .error "duplicated key gt") := by
  refine ⟨rfl, by decide, by decide, by decide, rfl, rfl, rfl, fun _ _ => rfl⟩

end search

/-! ## The regexp clause -/

namespace picker

/-- C16.  `Clear` on a nil `*RegexpQuery` returns and leaves it nil; on a non-nil receiver
it returns and leaves the zero value `RegexpQuery{}`; and clearing what `Clear` left gives
the same again. -/
theorem RegexpQuery_Clear_spec (X : RegexpTypes) :
    RegexpQuery.Clear (none : Option (RegexpQuery X)) = Outcome.returns none ∧
    (∀ q : RegexpQuery X,
      RegexpQuery.Clear (some q) = Outcome.returns (some (RegexpQuery.zero X))) ∧
    (∀ q : Option (RegexpQuery X), ∃ q' : Option (RegexpQuery X),
      RegexpQuery.Clear q = Outcome.returns q' ∧ RegexpQuery.Clear q' = Outcome.returns q') := by
  refine ⟨rfl, fun _ => rfl, fun q => ?_⟩
  cases q with
  | none => exact ⟨none, rfl, rfl⟩
  | some q => exact ⟨some (RegexpQuery.zero X), rfl, rfl⟩

/-- C17.  `Regexp` and `Clause` of every `RegexpQueryParams`, and `UnmarshalJSON`,
`MarshalJSON` and `IsEmpty` of every `RegexpQuery`, panic with `not implemented`; none of
them returns. -/
theorem Regexp_methods_not_implemented (X : RegexpTypes) (E : Type) :
    (∀ p : RegexpQueryParams X,
      (p.Regexp : Outcome (Option (RegexpQuery X) × Option (Error E)))
        = Outcome.panics "not implemented" ∧
      (p.Clause : Outcome (Option (RegexpQuery X) × Option (Error E)))
        = Outcome.panics "not implemented" ∧
      (∀ r, (p.Regexp : Outcome (Option (RegexpQuery X) × Option (Error E)))
        ≠ Outcome.returns r) ∧
      (∀ r, (p.Clause : Outcome (Option (RegexpQuery X) × Option (Error E)))
        ≠ Outcome.returns r)) ∧
    (∀ (q : Option (RegexpQuery X)) (data : X.Bytes),
      (RegexpQuery.UnmarshalJSON q data : Outcome (Option (RegexpQuery X) × Option (Error E)))
        = Outcome.panics "not implemented" ∧
      RegexpQuery.IsEmpty q = Outcome.panics "not implemented") ∧
    (∀ q : RegexpQuery X,
      (q.MarshalJSON : Outcome (X.Bytes × Option (Error E)))
        = Outcome.panics "not implemented") := by
  refine ⟨fun p => ⟨rfl, rfl, fun r h => ?_, fun r h => ?_⟩, fun q data => ⟨rfl, rfl⟩,
    fun q => rfl⟩
  · cases h
  · cases h

end picker

/-! ## The fuzziness mixin: `SetFuzzyRewrite` and the encoding hooks -/

namespace search

/-- C18.  For a `Rewrite` that is not valid, `SetFuzzyRewrite` returns `ErrInvalidRewrite`
and leaves the mixin as it was; for a valid one it returns nil. -/
theorem SetFuzzyRewrite_validity (E : Type) (R : RewriteVocab) (f : FuzzinessParam)
    (v : Rewrite) :
    (R.IsValid v = false →
      (f.SetFuzzyRewrite R v : FuzzinessParam × Option (Error E))
        = (f, some Error.ErrInvalidRewrite)) ∧
    (R.IsValid v = true →
      (f.SetFuzzyRewrite R v : FuzzinessParam × Option (Error E)).2 = none) := by
  constructor
  · intro h
    simp [FuzzinessParam.SetFuzzyRewrite, h]
  · intro h
    unfold FuzzinessParam.SetFuzzyRewrite
    by_cases hv : f.FuzzyRewrite R ≠ v <;> simp [h, hv]

/-- C18 at the rewrite `bogus`, which the concrete vocabulary does not hold. -/
theorem SetFuzzyRewrite_validity_witness :
    sampleVocab.IsValid "bogus" = false ∧
    ((⟨"AUTO", ""⟩ : FuzzinessParam).SetFuzzyRewrite sampleVocab "bogus" :
        FuzzinessParam × Option (Error Unit))
      = (⟨"AUTO", ""⟩, some Error.ErrInvalidRewrite) :=
  ⟨by decide, (SetFuzzyRewrite_validity Unit sampleVocab ⟨"AUTO", ""⟩ "bogus").1 (by decide)⟩

/-- C19.  For a source that implements `WithFuzziness`, `marshalFuzzyRewriteParam` returns
no error; when `FuzzyRewrite()` differs from `DefaultFuzzyRewrite()` the result is `data`
with `fuzzy_rewrite` set to `FuzzyRewrite()` (the key is there and every other key is as
before), and when they are equal the result is `data` itself. -/
theorem marshalFuzzyRewriteParam_spec {σ E α : Type} (data : GoMap (Any α))
    (source : Dyn σ E) (a : WithFuzziness σ)
    (ha : asWithFuzziness source.methods = some a) :
    (marshalFuzzyRewriteParam data source).2 = none ∧
    (a.FuzzyRewrite source.value ≠ a.DefaultFuzzyRewrite source.value →
      (marshalFuzzyRewriteParam data source).1
        = data.set paramFuzzyRewrite (Any.rewrite (a.FuzzyRewrite source.value)) ∧
      (marshalFuzzyRewriteParam data source).1.get paramFuzzyRewrite
        = some (Any.rewrite (a.FuzzyRewrite source.value)) ∧
      ∀ k : String, k ≠ paramFuzzyRewrite →
        (marshalFuzzyRewriteParam data source).1.get k = data.get k) ∧
    (a.FuzzyRewrite source.value = a.DefaultFuzzyRewrite source.value →
      (marshalFuzzyRewriteParam data source).1 = data) := by
  unfold marshalFuzzyRewriteParam
  rw [ha]
  by_cases h : a.FuzzyRewrite source.value = a.DefaultFuzzyRewrite source.value
  · simp [h]
  · simp only [ne_eq, h, not_false_eq_true, if_true, true_implies, false_implies, and_true,
      true_and]
    exact ⟨GoMap.get_set_same _ _ _, fun k hk => GoMap.get_set_other _ _ _ _ hk⟩

/-- C20.  For a source that implements `WithFuzziness`, `marshalFuzzinessParam` returns no
error; when `Fuzziness()` differs from `"0"` the result is `data` with `fuzziness` set to
`Fuzziness()` (the key is there and every other key is as before), and when it is `"0"` the
result is `data` itself. -/
theorem marshalFuzzinessParam_spec {σ E α : Type} (data : GoMap (Any α))
    (source : Dyn σ E) (a : WithFuzziness σ)
    (ha : asWithFuzziness source.methods = some a) :
    (marshalFuzzinessParam data source).2 = none ∧
    (a.Fuzziness source.value ≠ "0" →
      (marshalFuzzinessParam data source).1
        = data.set paramFuzziness (Any.string (a.Fuzziness source.value)) ∧
      (marshalFuzzinessParam data source).1.get paramFuzziness
        = some (Any.string (a.Fuzziness source.value)) ∧
      ∀ k : String, k ≠ paramFuzziness →
        (marshalFuzzinessParam data source).1.get k = data.get k) ∧
    (a.Fuzziness source.value = "0" →
      (marshalFuzzinessParam data source).1 = data) := by
  unfold marshalFuzzinessParam
  rw [ha]
  by_cases h : a.Fuzziness source.value = "0"
  · simp [h, DefaultFuzziness]
  · simp only [ne_eq, DefaultFuzziness, h, not_false_eq_true, if_true, true_implies,
      false_implies, and_true, true_and]
    exact ⟨GoMap.get_set_same _ _ _, fun k hk => GoMap.get_set_other _ _ _ _ hk⟩

/-- C19 at an implementing source with fuzziness `AUTO` and the rewrite `constant_score`
chosen, which is not the derived default, and an empty map. -/
theorem marshalFuzzyRewriteParam_spec_witness :
    asWithFuzziness (implementingMethods Unit sampleVocab)
      = some (implementingTable Unit sampleVocab) ∧
    (implementingTable Unit sampleVocab).FuzzyRewrite ⟨"AUTO", "constant_score"⟩
      ≠ (implementingTable Unit sampleVocab).DefaultFuzzyRewrite ⟨"AUTO", "constant_score"⟩ ∧
    (marshalFuzzyRewriteParam (GoMap.empty : GoMap (Any Unit))
        (⟨⟨"AUTO", "constant_score"⟩, implementingMethods Unit sampleVocab⟩ :
          Dyn FuzzinessParam Unit)).2 = none ∧
    (marshalFuzzyRewriteParam (GoMap.empty : GoMap (Any Unit))
        (⟨⟨"AUTO", "constant_score"⟩, implementingMethods Unit sampleVocab⟩ :
          Dyn FuzzinessParam Unit)).1.get paramFuzzyRewrite
      = some (Any.rewrite "constant_score") :=
  ⟨rfl, by decide,
    (marshalFuzzyRewriteParam_spec (GoMap.empty : GoMap (Any Unit))
      (⟨⟨"AUTO", "constant_score"⟩, implementingMethods Unit sampleVocab⟩ :
        Dyn FuzzinessParam Unit) (implementingTable Unit sampleVocab) rfl).1,
    ((marshalFuzzyRewriteParam_spec (GoMap.empty : GoMap (Any Unit))
      (⟨⟨"AUTO", "constant_score"⟩, implementingMethods Unit sampleVocab⟩ :
        Dyn FuzzinessParam Unit) (implementingTable Unit sampleVocab) rfl).2.1
          (by decide)).2.1⟩

/-- C20 at an implementing source with fuzziness `AUTO` and an empty map. -/
theorem marshalFuzzinessParam_spec_witness :
    asWithFuzziness (implementingMethods Unit sampleVocab)
      = some (implementingTable Unit sampleVocab) ∧
    (implementingTable Unit sampleVocab).Fuzziness ⟨"AUTO", ""⟩ ≠ "0" ∧
    (marshalFuzzinessParam (GoMap.empty : GoMap (Any Unit))
        (⟨⟨"AUTO", ""⟩, implementingMethods Unit sampleVocab⟩ :
          Dyn FuzzinessParam Unit)).2 = none ∧
    (marshalFuzzinessParam (GoMap.empty : GoMap (Any Unit))
        (⟨⟨"AUTO", ""⟩, implementingMethods Unit sampleVocab⟩ :
          Dyn FuzzinessParam Unit)).1.get paramFuzziness
      = some (Any.string "AUTO") :=
  ⟨rfl, by decide,
    (marshalFuzzinessParam_spec (GoMap.empty : GoMap (Any Unit))
      (⟨⟨"AUTO", ""⟩, implementingMethods Unit sampleVocab⟩ :
        Dyn FuzzinessParam Unit) (implementingTable Unit sampleVocab) rfl).1,
    ((marshalFuzzinessParam_spec (GoMap.empty : GoMap (Any Unit))
      (⟨⟨"AUTO", ""⟩, implementingMethods Unit sampleVocab⟩ :
        Dyn FuzzinessParam Unit) (implementingTable Unit sampleVocab) rfl).2.1
          (by decide)).2.1⟩

end search

/-! ## The rank-feature field -/

namespace picker

/-- The key match accepts the tag name in any letter case and with a long s in place of an
`s`, and refuses another name. -/
theorem jsonKeyMatches_folds :
    jsonKeyMatches "positive_score_impact" "positive_score_impact" = true ∧
    jsonKeyMatches "Positive_Score_IMPACT" "positive_score_impact" = true ∧
    jsonKeyMatches "positive_\u017Fcore_impact" "positive_score_impact" = true ∧
    jsonKeyMatches "type" "positive_score_impact" = false := by
  decide

/-- Every `RankFeatureField` is the result of a successful build, the one from the params
value that holds its `Value()`. -/
theorem RankFeatureField.built (E : Type) (x : RankFeatureField) :
    ((⟨GoValue.json x.positiveScoreImpactParam.Value⟩ : RankFeatureFieldParams).RankFeature :
      RankFeatureField × Option (Error E)) = (x, none) := by
  rcases x with ⟨⟨_ | _ | _⟩⟩ <;> rfl

/-- C15.  For a field `x` that a successful `RankFeature()` build returned, `MarshalJSON`
succeeds, and `UnmarshalJSON` of its bytes into any receiver (a fresh one in particular)
succeeds and leaves the receiver equal to `x`. -/
theorem RankFeatureField_round_trip (E : Type) (T : FieldTypes) (p : RankFeatureFieldParams)
    (x f0 : RankFeatureField)
    (_hx : (p.RankFeature : RankFeatureField × Option (Error E)) = (x, none)) :
    (x.MarshalJSON T : WireData × Option (Error E)).2 = none ∧
    (f0.UnmarshalJSON (x.MarshalJSON T : WireData × Option (Error E)).1 :
      RankFeatureField × Option (Error E)) = (x, none) := by
  rcases x with ⟨⟨_ | _ | _⟩⟩
  · exact ⟨rfl, rfl⟩
  · exact ⟨rfl, rfl⟩
  · exact ⟨rfl, rfl⟩

/-- C15 at the field built from the params value with `positive_score_impact = false`. -/
theorem RankFeatureField_round_trip_witness :
    ((⟨GoValue.json (Json.bool false)⟩ : RankFeatureFieldParams).RankFeature :
      RankFeatureField × Option (Error Unit)) = (⟨⟨some false⟩⟩, none) ∧
    ((⟨⟨some false⟩⟩ : RankFeatureField).MarshalJSON sampleFieldTypes :
      WireData × Option (Error Unit)).2 = none ∧
    (RankFeatureField.zero.UnmarshalJSON
        ((⟨⟨some false⟩⟩ : RankFeatureField).MarshalJSON sampleFieldTypes :
          WireData × Option (Error Unit)).1 :
      RankFeatureField × Option (Error Unit)) = (⟨⟨some false⟩⟩, none) :=
  ⟨rfl, RankFeatureField_round_trip Unit sampleFieldTypes ⟨GoValue.json (Json.bool false)⟩
    ⟨⟨some false⟩⟩ RankFeatureField.zero rfl⟩

end picker

/-! ## The norms and format mixins: getter after setter -/

namespace mapping

/-- C21.  After `SetNorms(v)` the getter `Norms()` returns `v`, from every state; the zero
value `NormsParam{}` reports `Norms() = true`. -/
theorem Norms_after_SetNorms :
    (∀ (n : NormsParam) (v : Bool), (n.SetNorms v).Norms = v) ∧
    NormsParam.zero.Norms = true := by
  refine ⟨fun n v => ?_, rfl⟩
  rcases n with ⟨_ | _ | _⟩ <;> cases v <;> decide

end mapping

namespace search

/-- The getter `Format` never returns the empty string. -/
theorem FormatParam.Format_ne_empty (f : FormatParam) : f.Format ≠ "" := by
  unfold FormatParam.Format
  by_cases h : f.FormatValue = ""
  · rw [if_pos h]
    decide
  · rw [if_neg h]
    exact h

/-- C22.  The zero value `FormatParam{}` reports the default format; after `SetFormat(v)`
with a non-empty `v` the getter `Format()` returns `v`, from every state; and `Format()` is
never the empty string. -/
theorem Format_after_SetFormat :
    FormatParam.zero.Format = "strict_date_optional_time||epoch_millis" ∧
    (∀ (f : FormatParam) (v : String), v ≠ "" → (f.SetFormat v).Format = v) ∧
    (∀ f : FormatParam, f.Format ≠ "") := by
  refine ⟨rfl, fun f v hv => ?_, FormatParam.Format_ne_empty⟩
  unfold FormatParam.SetFormat
  by_cases h : v = f.Format
  · simp only [ne_eq, h, not_true_eq_false, if_false]
  · simp only [ne_eq, h, not_false_eq_true, if_true]
    simp [FormatParam.Format, hv]

/-- C22 at the format `yyyy-MM-dd`, set on the zero value. -/
theorem Format_after_SetFormat_witness :
    "yyyy-MM-dd" ≠ "" ∧ (FormatParam.zero.SetFormat "yyyy-MM-dd").Format = "yyyy-MM-dd" :=
  ⟨by decide, Format_after_SetFormat.2.1 FormatParam.zero "yyyy-MM-dd" (by decide)⟩

end search

/-! ## Range clauses: each bound setter on its own -/

namespace search

/-- C25.  For a raw value that coerces to `a`, each of the four bound setters returns nil
and changes its own bound only: the bound is nil when `a.IsNilOrZero()` and holds `a`
otherwise.  (`SetGreaterThanOrEqualTo` coerces with a pointer that was built from the raw
value, the other three with an empty one.) -/
theorem RangeRule_setters_on_coerced (D : Deps) (r : RangeRule D) (v : D.Raw) (a : D.SNT) :
    (D.set (D.newSNT none) v = .ok a →
      r.SetGreaterThan v
        = ({ r with GreaterThanValue := if D.isNilOrZero a then none else some a }, none) ∧
      r.SetLessThan v
        = ({ r with LessThanValue := if D.isNilOrZero a then none else some a }, none) ∧
      r.SetLessThanOrEqualTo v
        = ({ r with LessThanOrEqualToValue := if D.isNilOrZero a then none else some a },
            none)) ∧
    (D.set (D.newSNT (some v)) v = .ok a →
      r.SetGreaterThanOrEqualTo v
        = ({ r with GreaterThanOrEqualToValue := if D.isNilOrZero a then none else some a },
            none)) := by
  constructor
  · intro h
    by_cases hz : D.isNilOrZero a = true <;>
      simp [RangeRule.SetGreaterThan, RangeRule.SetLessThan, RangeRule.SetLessThanOrEqualTo,
        h, hz]
  · intro h
    by_cases hz : D.isNilOrZero a = true <;> simp [RangeRule.SetGreaterThanOrEqualTo, h, hz]

/-- C25 at the raw integer 7 of the concrete instance, set as the greater-than bound of the
zero rule. -/
theorem RangeRule_setters_on_coerced_witness :
    sampleDeps.set (sampleDeps.newSNT none) (SampleRaw.int 7) = .ok (SampleSNT.num 7) ∧
    (RangeRule.zero sampleDeps).SetGreaterThan (SampleRaw.int 7)
      = ({ RangeRule.zero sampleDeps with
            GreaterThanValue :=
              if sampleDeps.isNilOrZero (SampleSNT.num 7) then none
              else some (SampleSNT.num 7) }, none) :=
  ⟨rfl, ((RangeRule_setters_on_coerced sampleDeps (RangeRule.zero sampleDeps) (SampleRaw.int 7)
    (SampleSNT.num 7)).1 rfl).1⟩

/-- C30.  When the coercion of the raw value fails with `err`, each of the four bound
setters returns that error, its own bound is nil afterwards, also when it held a value
before, and nothing else of the rule has changed.  A setter returns an error in no other
case: whenever one returns an error, the coercion has failed with it and the rule is the
prior rule with the setter's own bound nil.  (`SetGreaterThanOrEqualTo` coerces with a
pointer that was built from the raw value, the other three with an empty one.) -/
theorem RangeRule_setters_on_error (D : Deps) (r : RangeRule D) (v : D.Raw) :
    (∀ err, D.set (D.newSNT none) v = .error err →
      r.SetGreaterThan v = ({ r with GreaterThanValue := none }, some (Error.dynamic err)) ∧
      r.SetLessThan v = ({ r with LessThanValue := none }, some (Error.dynamic err)) ∧
      r.SetLessThanOrEqualTo v
        = ({ r with LessThanOrEqualToValue := none }, some (Error.dynamic err))) ∧
    (∀ err, D.set (D.newSNT (some v)) v = .error err →
      r.SetGreaterThanOrEqualTo v
        = ({ r with GreaterThanOrEqualToValue := none }, some (Error.dynamic err))) ∧
    (∀ e : Error D.DynErr,
      ((r.SetGreaterThan v).2 = some e →
        (∃ err, D.set (D.newSNT none) v = .error err ∧ e = Error.dynamic err) ∧
        (r.SetGreaterThan v).1 = { r with GreaterThanValue := none }) ∧
      ((r.SetGreaterThanOrEqualTo v).2 = some e →
        (∃ err, D.set (D.newSNT (some v)) v = .error err ∧ e = Error.dynamic err) ∧
        (r.SetGreaterThanOrEqualTo v).1 = { r with GreaterThanOrEqualToValue := none }) ∧
      ((r.SetLessThan v).2 = some e →
        (∃ err, D.set (D.newSNT none) v = .error err ∧ e = Error.dynamic err) ∧
        (r.SetLessThan v).1 = { r with LessThanValue := none }) ∧
      ((r.SetLessThanOrEqualTo v).2 = some e →
        (∃ err, D.set (D.newSNT none) v = .error err ∧ e = Error.dynamic err) ∧
        (r.SetLessThanOrEqualTo v).1 = { r with LessThanOrEqualToValue := none })) := by
  refine ⟨fun err h => ?_, fun err h => ?_, fun e => ⟨?_, ?_, ?_, ?_⟩⟩
  · simp [RangeRule.SetGreaterThan, RangeRule.SetLessThan, RangeRule.SetLessThanOrEqualTo, h]
  · simp [RangeRule.SetGreaterThanOrEqualTo, h]
  · unfold RangeRule.SetGreaterThan
    cases D.set (D.newSNT none) v with
    | error err =>
      intro h
      simp only [Option.some.injEq] at h
      exact ⟨⟨err, rfl, h.symm⟩, rfl⟩
    | ok a => by_cases hz : D.isNilOrZero a = true <;> simp [hz]
  · unfold RangeRule.SetGreaterThanOrEqualTo
    cases D.set (D.newSNT (some v)) v with
    | error err =>
      intro h
      simp only [Option.some.injEq] at h
      exact ⟨⟨err, rfl, h.symm⟩, rfl⟩
    | ok a => by_cases hz : D.isNilOrZero a = true <;> simp [hz]
  · unfold RangeRule.SetLessThan
    cases D.set (D.newSNT none) v with
    | error err =>
      intro h
      simp only [Option.some.injEq] at h
      exact ⟨⟨err, rfl, h.symm⟩, rfl⟩
    | ok a => by_cases hz : D.isNilOrZero a = true <;> simp [hz]
  · unfold RangeRule.SetLessThanOrEqualTo
    cases D.set (D.newSNT none) v with
    | error err =>
      intro h
      simp only [Option.some.injEq] at h
      exact ⟨⟨err, rfl, h.symm⟩, rfl⟩
    | ok a => by_cases hz : D.isNilOrZero a = true <;> simp [hz]

/-- C30 at a rule of the concrete instance that holds all four bounds: an unsupported raw
value fails coercion, and each of the four setters returns the error and clears its own
bound only. -/
theorem RangeRule_setters_on_error_witness :
    (sampleDeps.set (sampleDeps.newSNT none) SampleRaw.unsupported = .error "unsupported type" ∧
      sampleDeps.set (sampleDeps.newSNT (some SampleRaw.unsupported)) SampleRaw.unsupported
        = .error "unsupported type") ∧
    (sampleAllBounds.SetGreaterThan SampleRaw.unsupported
        = ({ sampleAllBounds with GreaterThanValue := none },
            some (Error.dynamic "unsupported type")) ∧
      sampleAllBounds.SetLessThan SampleRaw.unsupported
        = ({ sampleAllBounds with LessThanValue := none },
            some (Error.dynamic "unsupported type")) ∧
      sampleAllBounds.SetLessThanOrEqualTo SampleRaw.unsupported
        = ({ sampleAllBounds with LessThanOrEqualToValue := none },
            some (Error.dynamic "unsupported type"))) ∧
    sampleAllBounds.SetGreaterThanOrEqualTo SampleRaw.unsupported
      = ({ sampleAllBounds with GreaterThanOrEqualToValue := none },
          some (Error.dynamic "unsupported type")) ∧
    (sampleAllBounds.SetGreaterThan SampleRaw.unsupported).1.GreaterThanValue = none ∧
    (sampleAllBounds.SetGreaterThan SampleRaw.unsupported).1.GreaterThanOrEqualToValue
      = some (SampleSNT.num 2) ∧
    (sampleAllBounds.SetGreaterThan SampleRaw.unsupported).1.LessThanValue
      = some (SampleSNT.num 8) ∧
    (sampleAllBounds.SetGreaterThan SampleRaw.unsupported).1.LessThanOrEqualToValue
      = some (SampleSNT.num 9) :=
  ⟨⟨rfl, rfl⟩,
    (RangeRule_setters_on_error sampleDeps sampleAllBounds SampleRaw.unsupported).1
      "unsupported type" rfl,
    (RangeRule_setters_on_error sampleDeps sampleAllBounds SampleRaw.unsupported).2.1
      "unsupported type" rfl,
    rfl, rfl, rfl, rfl⟩

/-- The setter `SetGreaterThanOrEqualTo` does not write `GreaterThanValue`. -/
theorem RangeRule.SetGreaterThanOrEqualTo_gt {D : Deps} (r : RangeRule D) (v : D.Raw) :
    (r.SetGreaterThanOrEqualTo v).1.GreaterThanValue = r.GreaterThanValue := by
  unfold RangeRule.SetGreaterThanOrEqualTo
  cases D.set (D.newSNT (some v)) v with
  | error err => rfl
  | ok a => by_cases hz : D.isNilOrZero a = true <;> simp [hz]

/-- C23 (the code departs from the claim).  The getter `GreaterThanOrEqualTo` reads
`GreaterThanValue`: after `SetGreaterThanOrEqualTo(v)` it returns what the greater-than
bound held before the call, whatever `v` is.  On the zero rule of the concrete instance,
`SetGreaterThanOrEqualTo(10)` returns nil and stores 10 under `GreaterThanOrEqualToValue`,
and the getter returns nil. -/
theorem GreaterThanOrEqualTo_getter_reads_gt :
    (∀ (D : Deps) (r : RangeRule D) (v : D.Raw),
      (r.SetGreaterThanOrEqualTo v).1.GreaterThanOrEqualTo = r.GreaterThanValue) ∧
    sampleDeps.set (sampleDeps.newSNT (some (SampleRaw.int 10))) (SampleRaw.int 10)
      = .ok (SampleSNT.num 10) ∧
    sampleDeps.isNilOrZero (SampleSNT.num 10) = false ∧
    ((RangeRule.zero sampleDeps).SetGreaterThanOrEqualTo (SampleRaw.int 10)).2 = none ∧
    ((RangeRule.zero sampleDeps).SetGreaterThanOrEqualTo
        (SampleRaw.int 10)).1.GreaterThanOrEqualToValue = some (SampleSNT.num 10) ∧
    ((RangeRule.zero sampleDeps).SetGreaterThanOrEqualTo
        (SampleRaw.int 10)).1.GreaterThanOrEqualTo = none :=
  ⟨fun _ r v => RangeRule.SetGreaterThanOrEqualTo_gt r v, rfl, rfl, rfl, rfl, rfl⟩

/-- C24 (the code departs from the claim).  `Type()` of every `Range` and of every
`RangeRule` returns `TypeBoolean`, which is not the tag `TypeRange` that `AddRange` and
`AssignRange` put into their errors. -/
theorem Range_Type_is_TypeBoolean :
    (∀ (D : Deps) (r : search.Range D), r.Type_ = Kind.TypeBoolean) ∧
    (∀ (D : Deps) (q : RangeRule D), q.Type_ = Kind.TypeBoolean) ∧
    Kind.TypeBoolean ≠ Kind.TypeRange ∧
    (sampleRange .null .null .null .null).Type_ ≠ Kind.TypeRange ∧
    (RangeRule.zero sampleDeps).Type_ ≠ Kind.TypeRange ∧
    (samplePriceQuery.AddRange "price" (sampleRange .null .null .null .null)).2
      = some (Error.QueryError "price" Error.ErrFieldExists Kind.TypeRange) := by
  refine ⟨fun _ _ => rfl, fun _ _ => rfl, by decide, ?_, ?_, rfl⟩
  · show Kind.TypeBoolean ≠ Kind.TypeRange
    decide
  · show Kind.TypeBoolean ≠ Kind.TypeRange
    decide

/-- C28.  `AssignRange("", v)` returns the error built from `ErrFieldRequired` and
`TypeRange` and leaves the query as it was; so does `AddRange("", v)` when `""` is not a
key, up to a nil map having become an empty one; and whenever `AssignRange` returns an
error, every key has the entry it had before. -/
theorem AssignRange_error_keeps_entries (D : Deps) (q : RangeQuery D) (v : search.Range D) :
    q.AssignRange "" v
      = (q, some (D.NewQueryError Error.ErrFieldRequired Kind.TypeRange)) ∧
    (q.index "" = none →
      (q.AddRange "" v).2 = some (D.NewQueryError Error.ErrFieldRequired Kind.TypeRange) ∧
      ∀ k : String, (q.AddRange "" v).1.index k = q.index k) ∧
    (∀ (f : String) (e : Error D.DynErr), (q.AssignRange f v).2 = some e →
      ∀ k : String, (q.AssignRange f v).1.index k = q.index k) := by
  obtain ⟨rv⟩ := q
  refine ⟨by simp [RangeQuery.AssignRange], ?_, ?_⟩
  · intro h
    cases rv with
    | none =>
      simp [RangeQuery.AddRange, RangeQuery.AssignRange, RangeQuery.index, GoMap.empty,
        GoMap.get, GoMap.getList]
    | some m =>
      simp only [RangeQuery.index] at h
      simp [RangeQuery.AddRange, RangeQuery.AssignRange, RangeQuery.index, h]
  · intro f e
    unfold RangeQuery.AssignRange
    by_cases hf : f = ""
    · simp [hf]
    · simp only [hf, if_false]
      rcases hr : v.Range with ⟨qv, _ | err⟩
      · simp
      · intro _ k
        cases rv <;> simp [RangeQuery.index, GoMap.empty, GoMap.get, GoMap.getList]

/-- C28 at the query that holds one rule under `price`, where `""` is not a key. -/
theorem AssignRange_error_keeps_entries_witness :
    samplePriceQuery.index "" = none ∧
    (samplePriceQuery.AddRange "" (sampleRange .null .null .null .null)).2
      = some (sampleDeps.NewQueryError Error.ErrFieldRequired Kind.TypeRange) ∧
    ∀ k : String,
      (samplePriceQuery.AddRange "" (sampleRange .null .null .null .null)).1.index k
        = samplePriceQuery.index k :=
  ⟨rfl, (AssignRange_error_keeps_entries sampleDeps samplePriceQuery
    (sampleRange .null .null .null .null)).2.1 rfl⟩

end search

/-! ## The fuzziness mixin: decoding and the frame of `SetFuzziness` -/

namespace search

/-- C26 (the code departs from the claim).  `unmarshalFuzzyRewriteParam` returns nil for
every target and every wire value.  For a `*MatchBooleanPrefix` the type assertion fails and
the target is handed back as it was; on the zero value of the concrete instance the wire
value `bogus`, which is not a valid `Rewrite`, is decoded without an error. -/
theorem unmarshalFuzzyRewriteParam_returns_nil :
    (∀ (σ E : Type) (data : GjsonResult) (target : Dyn σ E),
      (unmarshalFuzzyRewriteParam data target).2 = none) ∧
    (∀ (X : MixinTypes) (E : Type) (R : RewriteVocab)
        (others : Methods (MatchBooleanPrefix X) E) (data : GjsonResult)
        (c : MatchBooleanPrefix X),
        unmarshalFuzzyRewriteParam data
          (⟨c, MatchBooleanPrefix.methods E R others⟩ : Dyn (MatchBooleanPrefix X) E)
          = (⟨c, MatchBooleanPrefix.methods E R others⟩, none)) ∧
    sampleVocab.IsValid "bogus" = false ∧
    (unmarshalFuzzyRewriteParam ⟨"bogus"⟩
        (⟨sampleMatchBooleanPrefix, MatchBooleanPrefix.methods Unit sampleVocab []⟩ :
          Dyn (MatchBooleanPrefix sampleMixins) Unit)).2 = none ∧
    (unmarshalFuzzyRewriteParam ⟨"bogus"⟩
        (⟨⟨"AUTO", ""⟩, implementingMethods Unit sampleVocab⟩ : Dyn FuzzinessParam Unit)).2
      = none := by
  have hnil : ∀ (σ E : Type) (data : GjsonResult) (target : Dyn σ E),
      (unmarshalFuzzyRewriteParam data target).2 = none := by
    intro σ E data target
    unfold unmarshalFuzzyRewriteParam
    cases asWithFuzziness target.methods <;> rfl
  refine ⟨hnil, ?_, by decide, hnil _ _ _ _, hnil _ _ _ _⟩
  intro X E R others data c
  simp [unmarshalFuzzyRewriteParam, MatchBooleanPrefix.asWithFuzziness_none]

/-- The setter `SetFuzziness` does not write `FuzzyRewriteValue`. -/
theorem FuzzinessParam.SetFuzziness_rewrite (f : FuzzinessParam) (s : String) :
    (f.SetFuzziness s).FuzzyRewriteValue = f.FuzzyRewriteValue := by
  unfold FuzzinessParam.SetFuzziness
  by_cases h : f.Fuzziness ≠ s
  · rw [if_pos h]
  · rw [if_neg h]

/-- C29, the claim as stated fails: on the mixin with fuzziness `"0"` and no rewrite stored,
`SetFuzzyRewrite("constant_score")` returns nil and `FuzzyRewrite()` is `constant_score`,
but after `SetFuzziness("AUTO")` it is `top_terms_blended_freqs_N`. -/
theorem FuzzyRewrite_changes_after_SetFuzziness :
    sampleVocab.IsValid "constant_score" = true ∧
    ((⟨"0", ""⟩ : FuzzinessParam).SetFuzzyRewrite sampleVocab "constant_score" :
        FuzzinessParam × Option (Error Unit)).2 = none ∧
    ((⟨"0", ""⟩ : FuzzinessParam).SetFuzzyRewrite sampleVocab "constant_score" :
        FuzzinessParam × Option (Error Unit)).1.FuzzyRewrite sampleVocab = "constant_score" ∧
    (((⟨"0", ""⟩ : FuzzinessParam).SetFuzzyRewrite sampleVocab "constant_score" :
        FuzzinessParam × Option (Error Unit)).1.SetFuzziness "AUTO").FuzzyRewrite sampleVocab
      = "top_terms_blended_freqs_N" ∧
    (((⟨"0", ""⟩ : FuzzinessParam).SetFuzzyRewrite sampleVocab "constant_score" :
        FuzzinessParam × Option (Error Unit)).1.SetFuzziness "AUTO").FuzzyRewrite sampleVocab
      ≠ "constant_score" := by
  decide

/-- C29, amended.  Once `SetFuzzyRewrite(v)` has returned nil (`v` is valid, the empty
string is not), `FuzzyRewrite()` returns `v`.  It keeps returning `v` after every later
`SetFuzziness(s)` unless, before the call, no rewrite was stored and `v` was the derived
default; in that case nothing is stored and after `SetFuzziness(s)` the getter returns the
derived default of the new fuzziness. -/
theorem FuzzyRewrite_after_SetFuzzyRewrite (E : Type) (R : RewriteVocab) (f : FuzzinessParam)
    (v : Rewrite) (hv : R.IsValid v = true) (h0 : R.IsValid "" = false) :
    (f.SetFuzzyRewrite R v : FuzzinessParam × Option (Error E)).2 = none ∧
    (f.SetFuzzyRewrite R v : FuzzinessParam × Option (Error E)).1.FuzzyRewrite R = v ∧
    (f.FuzzyRewriteValue ≠ "" ∨ f.DefaultFuzzyRewrite R ≠ v →
      ∀ s : String,
        ((f.SetFuzzyRewrite R v : FuzzinessParam × Option (Error E)).1.SetFuzziness
          s).FuzzyRewrite R = v) ∧
    (f.FuzzyRewriteValue = "" ∧ f.DefaultFuzzyRewrite R = v →
      ∀ s : String,
        ((f.SetFuzzyRewrite R v : FuzzinessParam × Option (Error E)).1.SetFuzziness
          s).FuzzyRewrite R = (f.SetFuzziness s).DefaultFuzzyRewrite R) := by
  have hne : v ≠ "" := by
    intro h
    rw [h, h0] at hv
    cases hv
  have hfr : ∀ g : FuzzinessParam, g.FuzzyRewriteValue = v → g.FuzzyRewrite R = v := by
    intro g hg
    simp [FuzzinessParam.FuzzyRewrite, hg, hne]
  by_cases hcur : f.FuzzyRewrite R = v
  · have hset : (f.SetFuzzyRewrite R v : FuzzinessParam × Option (Error E)) = (f, none) := by
      simp [FuzzinessParam.SetFuzzyRewrite, hv, hcur]
    rw [hset]
    refine ⟨rfl, hcur, ?_, ?_⟩
    · intro hst s
      have hval : f.FuzzyRewriteValue = v := by
        by_cases he : f.FuzzyRewriteValue = ""
        · rcases hst with h | h
          · exact absurd he h
          · simp [FuzzinessParam.FuzzyRewrite, he] at hcur
            exact absurd hcur h
        · simpa [FuzzinessParam.FuzzyRewrite, he] using hcur
      exact hfr _ (by rw [FuzzinessParam.SetFuzziness_rewrite, hval])
    · intro hst s
      have he : (f.SetFuzziness s).FuzzyRewriteValue = "" := by
        rw [FuzzinessParam.SetFuzziness_rewrite, hst.1]
      simp [FuzzinessParam.FuzzyRewrite, he]
  · have hset : (f.SetFuzzyRewrite R v : FuzzinessParam × Option (Error E))
        = ({ f with FuzzyRewriteValue := v }, none) := by
      simp [FuzzinessParam.SetFuzzyRewrite, hv, hcur]
    rw [hset]
    refine ⟨rfl, hfr _ rfl, ?_, ?_⟩
    · intro _ s
      exact hfr _ (by rw [FuzzinessParam.SetFuzziness_rewrite])
    · intro hst
      exfalso
      apply hcur
      simp [FuzzinessParam.FuzzyRewrite, hst.1, hst.2]

/-- C29, amended, at the mixin with fuzziness `AUTO` and no rewrite stored, where
`constant_score` is not the derived default and is stored. -/
theorem FuzzyRewrite_after_SetFuzzyRewrite_witness :
    (sampleVocab.IsValid "constant_score" = true ∧ sampleVocab.IsValid "" = false) ∧
    ((⟨"AUTO", ""⟩ : FuzzinessParam).SetFuzzyRewrite sampleVocab "constant_score" :
        FuzzinessParam × Option (Error Unit)).2 = none ∧
    ((⟨"AUTO", ""⟩ : FuzzinessParam).SetFuzzyRewrite sampleVocab "constant_score" :
        FuzzinessParam × Option (Error Unit)).1.FuzzyRewrite sampleVocab = "constant_score" :=
  ⟨⟨by decide, by decide⟩,
    (FuzzyRewrite_after_SetFuzzyRewrite Unit sampleVocab ⟨"AUTO", ""⟩ "constant_score"
      (by decide) (by decide)).1,
    (FuzzyRewrite_after_SetFuzzyRewrite Unit sampleVocab ⟨"AUTO", ""⟩ "constant_score"
      (by decide) (by decide)).2.1⟩

end search

/-! ## The transpositions mixin: decoding -/

namespace picker

/-- C27.  For a target that implements `WithTranspositions`: when `dynamic.NewBool(w)`
fails, `unmarshalTranspositionsParam` returns that error and the target is as it was; when
`w` coerces to the boolean `b`, it returns nil and the target is what `SetTranspositions(b)`
leaves, so that `Transpositions()` is `b` for every target whose setter does what the
interface says, and for every `*transpositionsParam`, whatever it held before. -/
theorem unmarshalTranspositionsParam_spec (B : BoolDeps) (w : B.JSON) :
    (∀ (σ E : Type) (target : Dyn σ E) (a : WithTranspositions σ),
      asWithTranspositions target.methods = some a →
        (∀ err, B.NewBool w = .error err →
          unmarshalTranspositionsParam B w target = (target, some (Error.dynamic err))) ∧
        (∀ d b, B.NewBool w = .ok d → B.boolValue d = some b →
          (unmarshalTranspositionsParam B w target).2 = none ∧
          (unmarshalTranspositionsParam B w target).1
            = { target with value := a.SetTranspositions target.value b } ∧
          ((∀ s v, a.Transpositions (a.SetTranspositions s v) = v) →
            a.Transpositions (unmarshalTranspositionsParam B w target).1.value = b))) ∧
    (∀ (E : Type) (t : transpositionsParam) (d : B.DynBool) (b : Bool),
      B.NewBool w = .ok d → B.boolValue d = some b →
        (unmarshalTranspositionsParam B w (t.toDyn E)).2 = none ∧
        (unmarshalTranspositionsParam B w (t.toDyn E)).1.value.Transpositions = b) := by
  have hgen : ∀ (σ E : Type) (target : Dyn σ E) (a : WithTranspositions σ),
      asWithTranspositions target.methods = some a →
      ∀ d b, B.NewBool w = .ok d → B.boolValue d = some b →
        unmarshalTranspositionsParam B w target
          = ({ target with value := a.SetTranspositions target.value b }, none) := by
    intro σ E target a ha d b hd hb
    simp [unmarshalTranspositionsParam, ha, hd, hb]
  constructor
  · intro σ E target a ha
    constructor
    · intro err herr
      simp [unmarshalTranspositionsParam, ha, herr]
    · intro d b hd hb
      rw [hgen σ E target a ha d b hd hb]
      exact ⟨rfl, rfl, fun hlaw => hlaw _ _⟩
  · intro E t d b hd hb
    rw [hgen transpositionsParam E (t.toDyn E)
      ⟨transpositionsParam.Transpositions, transpositionsParam.SetTranspositions⟩ rfl d b hd hb]
    exact ⟨rfl, rfl⟩

/-- C27 at the wire value `false` and a `*transpositionsParam` that held `true`. -/
theorem unmarshalTranspositionsParam_spec_witness :
    (sampleBoolDeps.NewBool (Json.bool false) = .ok (some false) ∧
      sampleBoolDeps.boolValue (some false) = some false) ∧
    (unmarshalTranspositionsParam sampleBoolDeps (Json.bool false)
        ((transpositionsParam.zero.SetTranspositions true).toDyn Unit)).2 = none ∧
    (unmarshalTranspositionsParam sampleBoolDeps (Json.bool false)
        ((transpositionsParam.zero.SetTranspositions true).toDyn Unit)).1.value.Transpositions
      = false :=
  ⟨⟨rfl, rfl⟩,
    (unmarshalTranspositionsParam_spec sampleBoolDeps (Json.bool false)).2 Unit
      (transpositionsParam.zero.SetTranspositions true) (some false) false rfl rfl⟩

end picker

/-! ## The match-phrase clause -/

namespace search

/-- C33 (the code departs from the claim).  On a `MatchPhraseQuery` whose map is nil, the
zero value in particular, `SetMatchPhrase` panics for every field name and value; on an
allocated map it returns, the entry under the field is the value and every other entry is
as before. -/
theorem SetMatchPhrase_nil_map_panics (X : PhraseMixinTypes) :
    (∀ (field : String) (value : MatchPhrase X),
      (⟨none⟩ : MatchPhraseQuery X).SetMatchPhrase field value
        = picker.Outcome.panics "assignment to entry in nil map") ∧
    (∀ (field : String) (value : MatchPhrase X) (mp' : MatchPhraseQuery X),
      (⟨none⟩ : MatchPhraseQuery X).SetMatchPhrase field value
        ≠ picker.Outcome.returns mp') ∧
    (∀ (m : GoMap (MatchPhrase X)) (field : String) (value : MatchPhrase X),
      (⟨some m⟩ : MatchPhraseQuery X).SetMatchPhrase field value
        = picker.Outcome.returns ⟨some (m.set field value)⟩ ∧
      (⟨some (m.set field value)⟩ : MatchPhraseQuery X).index field = some value ∧
      ∀ k : String, k ≠ field →
        (⟨some (m.set field value)⟩ : MatchPhraseQuery X).index k
          = (⟨some m⟩ : MatchPhraseQuery X).index k) := by
  refine ⟨fun _ _ => rfl, fun _ _ _ h => ?_, fun m field value => ⟨rfl, ?_, fun k hk => ?_⟩⟩
  · cases h
  · exact GoMap.get_set_same _ _ _
  · exact GoMap.get_set_other _ _ _ _ hk

end search

/-! ## The rank-feature kinds: failed decoding -/

namespace picker

/-- When `UnmarshalJSON` of a `*RankFeatureField` returns an error, the receiver is as it was
before the call. -/
theorem RankFeatureField.UnmarshalJSON_error_keeps_receiver (E : Type) (f : RankFeatureField)
    (data : WireData) (e : Error E)
    (h : (f.UnmarshalJSON data : RankFeatureField × Option (Error E)).2 = some e) :
    (f.UnmarshalJSON data : RankFeatureField × Option (Error E)).1 = f := by
  unfold RankFeatureField.UnmarshalJSON at h ⊢
  cases hd : (unmarshalRankFeatureFieldParams data : Except (Error E) RankFeatureFieldParams) with
  | error err => rfl
  | ok p =>
    rw [hd] at h
    rcases hp : (p.RankFeature : RankFeatureField × Option (Error E)) with ⟨n, _ | err⟩
    · simp [hp] at h
    · simp [hp]

/-- When the JSON decoder rejects the bytes, `UnmarshalJSON` of a `*RankFeaturesField`
leaves the receiver as it was; when the build from the decoded params fails, the receiver
is the field that the build handed back, whatever the receiver was. -/
theorem RankFeaturesField.UnmarshalJSON_cases (E : Type) (g : RankFeaturesField)
    (data : WireData) :
    (∀ err, (unmarshalRankFeaturesFieldParams data : Except (Error E) RankFeaturesFieldParams)
        = .error err →
      (g.UnmarshalJSON data : RankFeaturesField × Option (Error E)) = (g, some err)) ∧
    (∀ p, (unmarshalRankFeaturesFieldParams data : Except (Error E) RankFeaturesFieldParams)
        = .ok p →
      (g.UnmarshalJSON data : RankFeaturesField × Option (Error E))
        = (p.RankFeatures : RankFeaturesField × Option (Error E))) := by
  constructor
  · intro err h
    simp [RankFeaturesField.UnmarshalJSON, h]
  · intro p h
    simp [RankFeaturesField.UnmarshalJSON, h]

/-- C32 (the code departs from the claim).  On a `*RankFeaturesField` that holds `true`,
`UnmarshalJSON` of `{"positive_score_impact": 5}` returns an error and leaves the zero value
in the receiver; `UnmarshalJSON` of a `*RankFeatureField` that holds `true` returns an error
on the same bytes and leaves the receiver as it was, and both leave it as it was on bytes
that are not JSON. -/
theorem RankFeaturesField_UnmarshalJSON_overwrites_on_error :
    (∃ e : Error Unit,
      ((⟨⟨some true⟩⟩ : RankFeaturesField).UnmarshalJSON sampleNotBooleanData :
        RankFeaturesField × Option (Error Unit)).2 = some e) ∧
    ((⟨⟨some true⟩⟩ : RankFeaturesField).UnmarshalJSON sampleNotBooleanData :
        RankFeaturesField × Option (Error Unit)).1 = RankFeaturesField.zero ∧
    ((⟨⟨some true⟩⟩ : RankFeaturesField).UnmarshalJSON sampleNotBooleanData :
        RankFeaturesField × Option (Error Unit)).1 ≠ ⟨⟨some true⟩⟩ ∧
    (∃ e : Error Unit,
      ((⟨⟨some true⟩⟩ : RankFeatureField).UnmarshalJSON sampleNotBooleanData :
        RankFeatureField × Option (Error Unit)).2 = some e) ∧
    ((⟨⟨some true⟩⟩ : RankFeatureField).UnmarshalJSON sampleNotBooleanData :
        RankFeatureField × Option (Error Unit)).1 = ⟨⟨some true⟩⟩ ∧
    ((⟨⟨some true⟩⟩ : RankFeaturesField).UnmarshalJSON WireData.malformed :
        RankFeaturesField × Option (Error Unit))
      = (⟨⟨some true⟩⟩, some (Error.json "invalid character")) ∧
    ((⟨⟨some true⟩⟩ : RankFeatureField).UnmarshalJSON WireData.malformed :
        RankFeatureField × Option (Error Unit))
      = (⟨⟨some true⟩⟩, some (Error.json "invalid character")) := by
  refine ⟨⟨Error.MappingError [Error.NotBoolean], rfl⟩, rfl, by decide,
    ⟨Error.MappingError [Error.NotBoolean], rfl⟩, rfl, rfl, rfl⟩

end picker

/-! ## Range clauses: `SetRange` -/

theorem GoMap.getList_eq_none {V : Type} (l : List (String × V)) (k : String)
    (h : k ∉ l.map Prod.fst) : GoMap.getList l k = none := by
  induction l with
  | nil => rfl
  | cons e l ih =>
    obtain ⟨k0, v0⟩ := e
    simp only [List.map_cons, List.mem_cons, not_or] at h
    have hk : ¬ k0 = k := fun h' => h.1 h'.symm
    simp [GoMap.getList, hk, ih h.2]

theorem GoMap.getList_of_mem {V : Type} (l : List (String × V)) (k : String) (v : V)
    (hnd : (l.map Prod.fst).Nodup) (h : (k, v) ∈ l) : GoMap.getList l k = some v := by
  induction l with
  | nil => cases h
  | cons e l ih =>
    obtain ⟨k0, v0⟩ := e
    simp only [List.map_cons, List.nodup_cons] at hnd
    rcases List.mem_cons.mp h with h | h
    · cases h
      simp [GoMap.getList]
    · have hk : ¬ k0 = k := by
        intro h'
        subst h'
        exact hnd.1 (List.mem_map.mpr ⟨(k0, v), h, rfl⟩)
      simp [GoMap.getList, hk, ih hnd.2 h]

namespace search

/-- On an allocated map, `AssignRange` with a non-empty field and a params value that builds
writes the rule that was built under the field and returns nil. -/
theorem RangeQuery.AssignRange_of_built {D : Deps} (m : GoMap (Option (RangeRule D)))
    (f : String) (v : search.Range D) (hf : f ≠ "") (hv : v.Range.2 = none) :
    (⟨some m⟩ : RangeQuery D).AssignRange f v
      = (⟨some (m.set f (some v.Range.1))⟩, none) := by
  rcases hr : v.Range with ⟨qv, _ | err⟩
  · simp [RangeQuery.AssignRange, hf, hr]
  · rw [hr] at hv
    cases hv

/-- The loop of `SetRange` over entries with distinct non-empty keys whose values all build:
it returns nil, every key of the entries holds the rule built from its value, and every
other key holds what it held before the loop. -/
theorem RangeQuery.setRangeLoop_of_built {D : Deps} (l : List (String × search.Range D))
    (hnd : (l.map Prod.fst).Nodup) (hne : ∀ e ∈ l, e.1 ≠ "")
    (hok : ∀ e ∈ l, e.2.Range.2 = none) (m : GoMap (Option (RangeRule D))) :
    ∃ m' : GoMap (Option (RangeRule D)),
      RangeQuery.setRangeLoop (⟨some m⟩ : RangeQuery D) l = (⟨some m'⟩, none) ∧
      ∀ k : String, m'.get k =
        match GoMap.getList l k with
        | some v => some (some v.Range.1)
        | none => m.get k := by
  induction l generalizing m with
  | nil => exact ⟨m, rfl, fun k => rfl⟩
  | cons e l ih =>
    obtain ⟨k0, v0⟩ := e
    simp only [List.map_cons, List.nodup_cons] at hnd
    have hk0 : k0 ≠ "" := hne (k0, v0) (List.mem_cons_self _ _)
    have hv0 : v0.Range.2 = none := hok (k0, v0) (List.mem_cons_self _ _)
    obtain ⟨m', hloop, hget⟩ := ih hnd.2 (fun e he => hne e (List.mem_cons_of_mem _ he))
      (fun e he => hok e (List.mem_cons_of_mem _ he)) (m.set k0 (some v0.Range.1))
    refine ⟨m', ?_, fun k => ?_⟩
    · simp only [RangeQuery.setRangeLoop, RangeQuery.AssignRange_of_built m k0 v0 hk0 hv0]
      exact hloop
    · rw [hget k]
      by_cases hk : k0 = k
      · subst hk
        simp [GoMap.getList, GoMap.getList_eq_none l k0 hnd.1, GoMap.get_set_same]
      · have hk' : k ≠ k0 := fun h => hk h.symm
        simp only [GoMap.getList, hk, if_false]
        cases GoMap.getList l k with
        | some v => rfl
        | none => exact GoMap.get_set_other _ _ _ _ hk'

/-- The loop of `SetRange` over entries that have the empty key returns an error. -/
theorem RangeQuery.setRangeLoop_empty_key {D : Deps} (l : List (String × search.Range D))
    (h : "" ∈ l.map Prod.fst) (r : RangeQuery D) :
    ∃ e, (RangeQuery.setRangeLoop r l).2 = some e := by
  induction l generalizing r with
  | nil => cases h
  | cons e l ih =>
    obtain ⟨k0, v0⟩ := e
    rcases hr : r.AssignRange k0 v0 with ⟨r', _ | err⟩
    · have hk0 : k0 ≠ "" := by
        intro hk
        subst hk
        simp [RangeQuery.AssignRange] at hr
      have hl : "" ∈ l.map Prod.fst := by
        simp only [List.map_cons, List.mem_cons] at h
        rcases h with h | h
        · exact absurd h.symm hk0
        · exact h
      obtain ⟨e, he⟩ := ih hl r'
      exact ⟨e, by simp [RangeQuery.setRangeLoop, hr, he]⟩
    · exact ⟨err, by simp [RangeQuery.setRangeLoop, hr]⟩

/-- C31.  For a map `m` whose keys are non-empty and whose values all build, `SetRange(m)`
returns nil, afterwards every key of `m` holds the rule built from its value, and every
other key is absent, whatever the query held before and in whatever order the entries are
visited.  When `m` has the empty key, `SetRange(m)` returns an error. -/
theorem SetRange_spec (D : Deps) (q : RangeQuery D) (m : GoMap (search.Range D)) :
    (m.keys.Nodup → (∀ e ∈ m.entries, e.1 ≠ "") → (∀ e ∈ m.entries, e.2.Range.2 = none) →
      (q.SetRange m).2 = none ∧
      (∀ (k : String) (v : search.Range D), (k, v) ∈ m.entries →
        (q.SetRange m).1.index k = some (some v.Range.1)) ∧
      (∀ k : String, k ∉ m.keys → (q.SetRange m).1.index k = none)) ∧
    ("" ∈ m.keys → ∃ e, (q.SetRange m).2 = some e) := by
  constructor
  · intro hnd hne hok
    obtain ⟨m', hloop, hget⟩ :=
      RangeQuery.setRangeLoop_of_built m.entries hnd hne hok GoMap.empty
    have hset : q.SetRange m = (⟨some m'⟩, none) := by
      unfold RangeQuery.SetRange
      exact hloop
    rw [hset]
    refine ⟨rfl, fun k v hkv => ?_, fun k hk => ?_⟩
    · show m'.get k = _
      rw [hget k, GoMap.getList_of_mem m.entries k v hnd hkv]
    · show m'.get k = _
      rw [hget k, GoMap.getList_eq_none m.entries k hk]
      rfl
  · intro h
    exact RangeQuery.setRangeLoop_empty_key m.entries h _

/-- C31 at the query that holds a rule under `price` and the map with the keys `price` and
`age`: both hold their built rule afterwards. -/
theorem SetRange_spec_witness :
    (sampleRanges.keys.Nodup ∧ (∀ e ∈ sampleRanges.entries, e.1 ≠ "") ∧
      (∀ e ∈ sampleRanges.entries, e.2.Range.2 = none)) ∧
    (samplePriceQuery.SetRange sampleRanges).2 = none ∧
    (∀ (k : String) (v : search.Range sampleDeps), (k, v) ∈ sampleRanges.entries →
      (samplePriceQuery.SetRange sampleRanges).1.index k = some (some v.Range.1)) ∧
    (∀ k : String, k ∉ sampleRanges.keys →
      (samplePriceQuery.SetRange sampleRanges).1.index k = none) :=
  have hnd : sampleRanges.keys.Nodup := by decide
  have hne : ∀ e ∈ sampleRanges.entries, e.1 ≠ "" := by
    intro e he
    simp only [sampleRanges, List.mem_cons, List.mem_singleton, List.not_mem_nil, or_false] at he
    rcases he with he | he <;> subst he <;> decide
  have hok : ∀ e ∈ sampleRanges.entries, e.2.Range.2 = none := by
    intro e he
    simp only [sampleRanges, List.mem_cons, List.mem_singleton, List.not_mem_nil, or_false] at he
    rcases he with he | he <;> subst he <;> rfl
  ⟨⟨hnd, hne, hok⟩, (SetRange_spec sampleDeps samplePriceQuery sampleRanges).1 hnd hne hok⟩

end search
